import Mathlib

/-!
Verification development for the lab-booking engine of this repository.

The embedding models the booking lifecycle code:
* `server/routes/bookings.js` — the create route (`router.post("/")`) and the
  status route (`router.put("/:id/status")`);
* `server/services/bookingExpirationService.js` — `checkExpiredBookings` /
  `handleExpiredBooking` (the expiration sweeper);
* the client booking wizard (`BookingForm.handleSubmit`) — the interval and
  business-rule validation performed before the create request is sent.

Modelling conventions:
* Calendar dates are `Nat` day numbers; the day numbering is chosen so that
  the weekday of day `d` is `d % 7` with `0` = Sunday (mirroring date-fns
  `getDay`).  Comparison of day numbers mirrors lexicographic comparison of
  zero-padded ISO date strings, which is how the source compares dates.
* Times of day are `Nat` minutes since midnight, mirroring lexicographic
  comparison of zero-padded "HH:mm" strings used by the source.
* A combined instant (the source's `getDateTime`) is `day * 1440 + minutes`.
* The document store is modelled as in-memory lists of documents; `findById`
  is lookup of the first document with a matching id (MongoDB ids are unique,
  which theorems assume as an explicit `Nodup` hypothesis where needed).
* A `fault` oracle models a store failure while processing a given booking
  inside the sweeper (`await booking.save()` rejecting); the service catches
  such failures per booking.
-/

namespace Negces

/-- Booking lifecycle status (`pending`/`approved`/`rejected`/`cancelled`/`completed`). -/
inductive BStatus where
  | pending
  | approved
  | rejected
  | cancelled
  | completed
deriving DecidableEq

/-- Computer availability status (`available`/`booked`/`maintenance`). -/
inductive CStatus where
  | available
  | booked
  | maintenance
deriving DecidableEq

/-- A booking document (the fields the engine reads or writes). -/
structure Booking where
  id : Nat
  userId : Nat
  computerId : Nat
  startDate : Nat
  endDate : Nat
  startTime : Nat
  endTime : Nat
  reason : String
  status : BStatus
  rejectionReason : Option String
deriving DecidableEq

/-- A computer (resource) document. -/
structure Computer where
  id : Nat
  status : CStatus
deriving DecidableEq

/-- The document store: bookings, computers, and a fresh-id counter for new
booking documents. -/
structure St where
  bookings : List Booking
  computers : List Computer
  nextId : Nat
deriving DecidableEq

/-- The current wall-clock instant seen by the sweeper: `currentDate` (day
number) and `currentTime` (minutes since midnight). -/
structure Now where
  date : Nat
  time : Nat
deriving DecidableEq

/-- `Booking.findById`: first document with the given id. -/
def findBooking (bs : List Booking) (bid : Nat) : Option Booking :=
  match bs with
  | [] => none
  | b :: rest => if b.id == bid then some b else findBooking rest bid

/-- Saving a modified booking document: replace the first document with the
given id. -/
def updateBooking (bs : List Booking) (bid : Nat) (f : Booking → Booking) :
    List Booking :=
  match bs with
  | [] => []
  | b :: rest => if b.id == bid then f b :: rest else b :: updateBooking rest bid f

/-- `Computer.findById`: first document with the given id. -/
def findComputer (cs : List Computer) (cid : Nat) : Option Computer :=
  match cs with
  | [] => none
  | c :: rest => if c.id == cid then some c else findComputer rest cid

/-- `Computer.findByIdAndUpdate` / saving a modified computer document. -/
def updateComputer (cs : List Computer) (cid : Nat) (f : Computer → Computer) :
    List Computer :=
  match cs with
  | [] => []
  | c :: rest => if c.id == cid then f c :: rest else c :: updateComputer rest cid f

/-! ## Expiration sweeper (`bookingExpirationService.js`) -/

/-- The `Booking.find` query of `checkExpiredBookings`: status `approved` and
either (a single-day booking that has ended) `startDate = currentDate ∧
endDate = currentDate ∧ endTime < currentTime`, or (a booking whose end date
has passed) `endDate < currentDate`. -/
def expiredPred (now : Now) (b : Booking) : Bool :=
  b.status == BStatus.approved &&
    ((b.startDate == now.date && b.endDate == now.date && b.endTime < now.time) ||
      b.endDate < now.date)

/-- The list of bookings matched by the sweep query against the store. -/
def expiredBookings (now : Now) (st : St) : List Booking :=
  st.bookings.filter (expiredPred now)

/-- The booking update performed on an expired booking: `status = "completed"`. -/
def setCompleted (b : Booking) : Booking :=
  { b with status := BStatus.completed }

/-- The computer update of `handleExpiredBooking`: fetch the computer by id;
if it exists and its status is `booked`, set it to `available` (any other
status, e.g. `maintenance`, is left alone). -/
def releaseIfBooked (cs : List Computer) (cid : Nat) : List Computer :=
  match findComputer cs cid with
  | some c =>
    if c.status == CStatus.booked then
      updateComputer cs cid (fun x => { x with status := CStatus.available })
    else cs
  | none => cs

/-- The body of `handleExpiredBooking` before its `catch`: mark the booking
completed and release its computer. -/
def handleExpiredBookingBody (st : St) (b : Booking) : St :=
  { st with
    bookings := updateBooking st.bookings b.id setCompleted
    computers := releaseIfBooked st.computers b.computerId }

/-- `handleExpiredBooking` without its `try/catch`: a store fault while
processing this booking surfaces as an error and leaves the store unchanged. -/
def handleExpiredBookingEx (fault : Nat → Bool) (st : St) (b : Booking) :
    Except Unit St :=
  if fault b.id then Except.error () else Except.ok (handleExpiredBookingBody st b)

/-- `handleExpiredBooking` as written: its own `try/catch` swallows a failure
for this booking (logging it) so the caller never sees an error. -/
def handleExpiredBooking (fault : Nat → Bool) (st : St) (b : Booking) : St :=
  match handleExpiredBookingEx fault st b with
  | Except.ok st2 => st2
  | Except.error _ => st

/-- `checkExpiredBookings`: query the matched bookings once, then process each
in order; the logged count is the number of matched bookings. -/
def checkExpiredBookings (fault : Nat → Bool) (now : Now) (st : St) : St × Nat :=
  let matched := expiredBookings now st
  (matched.foldl (handleExpiredBooking fault) st, matched.length)

/-- A fault oracle under which no per-booking store operation fails. -/
def noFault : Nat → Bool := fun _ => false

/-- One fault-free sweep run. -/
def runSweep (now : Now) (st : St) : St :=
  (checkExpiredBookings noFault now st).1

/-! ## Status route (`router.put("/:id/status")`) -/

/-- Errors of the status route (HTTP 400/404 responses). -/
inductive StatusErr where
  | invalidStatus
  | missingRejectionReason
  | bookingNotFound
deriving DecidableEq

/-- The target-status string of the request mapped to a `BStatus`; only used
after the route has checked membership in `["approved","rejected","cancelled"]`. -/
def statusOfString (s : String) : BStatus :=
  if s == "approved" then BStatus.approved
  else if s == "rejected" then BStatus.rejected
  else if s == "cancelled" then BStatus.cancelled
  else BStatus.pending

/-- The booking update of the status route: `booking.status = status`, and if
the target is `rejected`, also `booking.rejectionReason = rejectionReason`. -/
def applyTarget (target : String) (rejectionReason : Option String) (b : Booking) :
    Booking :=
  let b2 := { b with status := statusOfString target }
  if target == "rejected" then { b2 with rejectionReason := rejectionReason } else b2

/-- The status route: validity of the target status and presence of a
rejection reason are checked before the booking is looked up; on success the
booking is saved and then the computer status is synchronized (`approved` sets
`booked` unconditionally; `rejected`/`cancelled` set `available` when no other
approved booking references the computer). -/
def setBookingStatus (st : St) (bid : Nat) (target : String)
    (rejectionReason : Option String) : Except StatusErr St :=
  if !(target == "approved" || target == "rejected" || target == "cancelled") then
    Except.error StatusErr.invalidStatus
  else if target == "rejected" && rejectionReason.getD "" == "" then
    Except.error StatusErr.missingRejectionReason
  else
    match findBooking st.bookings bid with
    | none => Except.error StatusErr.bookingNotFound
    | some b0 =>
      let bookings2 := updateBooking st.bookings bid (applyTarget target rejectionReason)
      let computers2 :=
        if target == "approved" then
          updateComputer st.computers b0.computerId
            (fun c => { c with status := CStatus.booked })
        else if target == "rejected" || target == "cancelled" then
          if bookings2.any (fun w =>
              w.computerId == b0.computerId && w.status == BStatus.approved &&
                w.id != bid) then
            st.computers
          else
            updateComputer st.computers b0.computerId
              (fun c => { c with status := CStatus.available })
        else st.computers
      Except.ok { st with bookings := bookings2, computers := computers2 }

/-! ## Booking creation: client validation (`BookingForm.handleSubmit`) and
the create route (`router.post("/")`) -/

/-- The booking-wizard form state at submission time (fields the validation
reads); absent date/time/computer selections are `none`, text fields are
empty strings when not filled in. -/
structure BookingForm where
  selectedComputer : Option Nat
  startDate : Option Nat
  endDate : Option Nat
  startTime : Option Nat
  endTime : Option Nat
  reason : String
  problemStatement : String
  datasetType : String
  datasetLink : String
  bottleneckExplanation : String
  datasetSize : Nat
deriving DecidableEq

/-- The distinct rejection reasons of the creation pipeline (client validation
messages plus the server's 400/404 responses). -/
inductive BookingErr where
  | missingFields
  | closureDayStart
  | closureDayEnd
  | endBeforeStart
  | durationTooLong
  | endBeforeStartInstant
  | durationTooShort
  | resourceNotFound
deriving DecidableEq

/-- date-fns `getDay` on our day numbering: `0` = Sunday (the lab closure day). -/
def getDay (d : Nat) : Nat := d % 7

/-- The source's `getDateTime`: combine a date with a time of day into one
instant, measured in minutes. -/
def instantOf (d t : Nat) : Nat := d * 1440 + t

/-- The `!text.trim()` test of the source: a string is blank exactly when it
consists only of whitespace, i.e. when its JS `trim()` is empty. -/
def isBlank (s : String) : Bool :=
  s.data.all (fun c => c.isWhitespace)

/-- The required-field check of `handleSubmit` (all falsy checks of the guard,
including the project-metadata fields and `datasetSize` being `0`; the
trimmed-emptiness tests of the source are `isBlank`). -/
def formMissing (f : BookingForm) : Bool :=
  f.selectedComputer.isNone || f.startDate.isNone || f.endDate.isNone ||
    f.startTime.isNone || f.endTime.isNone || isBlank f.reason ||
    isBlank f.problemStatement || f.datasetType == "" ||
    isBlank f.datasetLink || isBlank f.bottleneckExplanation ||
    f.datasetSize == 0

/-- The client-side validation of `handleSubmit`, in source order: missing
fields, start date on Sunday, end date on Sunday, end date before start date
(date-only), inclusive day span above 7, combined end instant before combined
start instant, and the 1-hour floor for same-day bookings
(`differenceInHours`, i.e. whole hours, below 1). -/
def validateBookingForm (f : BookingForm) : Option BookingErr :=
  if formMissing f then some BookingErr.missingFields
  else if getDay (f.startDate.getD 0) == 0 then some BookingErr.closureDayStart
  else if getDay (f.endDate.getD 0) == 0 then some BookingErr.closureDayEnd
  else if f.endDate.getD 0 < f.startDate.getD 0 then some BookingErr.endBeforeStart
  else if f.endDate.getD 0 - f.startDate.getD 0 + 1 > 7 then
    some BookingErr.durationTooLong
  else if instantOf (f.endDate.getD 0) (f.endTime.getD 0) <
      instantOf (f.startDate.getD 0) (f.startTime.getD 0) then
    some BookingErr.endBeforeStartInstant
  else if f.endDate.getD 0 - f.startDate.getD 0 == 0 &&
      (instantOf (f.endDate.getD 0) (f.endTime.getD 0) -
        instantOf (f.startDate.getD 0) (f.startTime.getD 0)) / 60 < 1 then
    some BookingErr.durationTooShort
  else none

/-- The body of the create request sent by the client (the fields the server
route reads). -/
structure CreateReq where
  computerId : Option Nat
  startDate : Option Nat
  endDate : Option Nat
  startTime : Option Nat
  endTime : Option Nat
  reason : Option String
deriving DecidableEq

/-- The request body built by `handleSubmit` from a validated form.  The
source sends `reason.trim()`; whitespace normalization does not affect any
engine decision, so the reason is carried as-is here. -/
def reqOfForm (f : BookingForm) : CreateReq :=
  { computerId := f.selectedComputer
    startDate := f.startDate
    endDate := f.endDate
    startTime := f.startTime
    endTime := f.endTime
    reason := some f.reason }

/-- Modelled from the spec: the new booking document created by the create
route.  The route itself passes no `status`, and the Mongoose `Booking`
schema (not present under `src/`) is what defaults it; per the spec a booking
is "created in `pending`" with no rejection reason. -/
def newBookingOf (st : St) (uid : Nat) (r : CreateReq) : Booking :=
  { id := st.nextId
    userId := uid
    computerId := r.computerId.getD 0
    startDate := r.startDate.getD 0
    endDate := r.endDate.getD 0
    startTime := r.startTime.getD 0
    endTime := r.endTime.getD 0
    reason := r.reason.getD ""
    status := BStatus.pending
    rejectionReason := none }

/-- The create route `router.post("/")`: reject when a required body field is
missing, then reject when the referenced computer does not exist (no check of
the computer's status), otherwise persist a new pending booking. -/
def createBookingServer (st : St) (uid : Nat) (r : CreateReq) :
    Except BookingErr St :=
  if r.computerId.isNone || r.startDate.isNone || r.endDate.isNone ||
      r.startTime.isNone || r.endTime.isNone || r.reason.getD "" == "" then
    Except.error BookingErr.missingFields
  else
    match findComputer st.computers (r.computerId.getD 0) with
    | none => Except.error BookingErr.resourceNotFound
    | some _ =>
      Except.ok
        { st with
          bookings := st.bookings ++ [newBookingOf st uid r]
          nextId := st.nextId + 1 }

/-- The full creation pipeline: client validation, then the create route. -/
def submitBooking (st : St) (uid : Nat) (f : BookingForm) : Except BookingErr St :=
  match validateBookingForm f with
  | some e => Except.error e
  | none => createBookingServer st uid (reqOfForm f)

/-! ## Operation sequences for the lifecycle invariants -/

/-- One engine operation: a creation request, an admin status decision, or a
sweep run. -/
inductive Op where
  | create (uid : Nat) (f : BookingForm)
  | setStatus (bid : Nat) (target : String) (rejectionReason : Option String)
  | sweep (now : Now)

/-- Apply one operation to the store; a request that the route rejects leaves
the store unchanged. -/
def applyOp (st : St) : Op → St
  | Op.create uid f =>
    match submitBooking st uid f with
    | Except.ok st2 => st2
    | Except.error _ => st
  | Op.setStatus bid t r =>
    match setBookingStatus st bid t r with
    | Except.ok st2 => st2
    | Except.error _ => st
  | Op.sweep now => runSweep now st

/-- Apply a finite sequence of operations in order. -/
def applyOps (st : St) (ops : List Op) : St :=
  ops.foldl applyOp st

/-- The id/computer pair of a booking document, the part of its identity the
engine never rewrites. -/
def coreOf (b : Booking) : Nat × Nat :=
  (b.id, b.computerId)

/-! ## Store-level invariants -/

/-- Every `booked` computer is referenced by at least one `approved` booking. -/
def BookedWitness (st : St) : Prop :=
  ∀ c ∈ st.computers, c.status = CStatus.booked →
    ∃ b ∈ st.bookings, b.computerId = c.id ∧ b.status = BStatus.approved

/-- Well-formedness of the store: booking and computer ids are unique (MongoDB
`_id`s), the fresh-id counter dominates all booking ids, and every `booked`
computer has an `approved` booking referencing it. -/
structure WF (st : St) : Prop where
  bNodup : (st.bookings.map Booking.id).Nodup
  cNodup : (st.computers.map Computer.id).Nodup
  fresh : ∀ b ∈ st.bookings, b.id < st.nextId
  booked : BookedWitness st

/-- Every `rejected` booking carries a non-empty rejection reason. -/
def RejInv (st : St) : Prop :=
  ∀ b ∈ st.bookings, b.status = BStatus.rejected →
    ∃ s, b.rejectionReason = some s ∧ s ≠ ""

/-! ## Concrete sample stores used by witnesses and counterexamples -/

/-- A sample booking document with the given id, computer, interval and status. -/
def sampleBooking (bid cid sd ed stm etm : Nat) (stt : BStatus) : Booking :=
  { id := bid, userId := 9, computerId := cid, startDate := sd, endDate := ed,
    startTime := stm, endTime := etm, reason := "work", status := stt,
    rejectionReason := none }

/-- An approved booking (id 1, computer 7) whose interval ended on day 2. -/
def bExp1 : Booking := sampleBooking 1 7 1 2 60 120 BStatus.approved

/-- An approved booking (id 2, computer 8) whose interval ended on day 2. -/
def bExp2 : Booking := sampleBooking 2 8 1 2 60 120 BStatus.approved

/-- A rejected booking (id 2, computer 8) carrying its rejection reason. -/
def bRej : Booking :=
  { sampleBooking 2 8 1 2 60 120 BStatus.rejected with rejectionReason := some "busy" }

/-- A sweep instant on day 5, midnight: both sample intervals have elapsed. -/
def nowLate : Now := { date := 5, time := 0 }

/-- A store with one pending booking (id 1) on an available computer (id 7). -/
def stPend : St :=
  { bookings := [sampleBooking 1 7 1 2 60 120 BStatus.pending]
    computers := [{ id := 7, status := CStatus.available }]
    nextId := 2 }

/-- A store with one completed booking (id 1) on an available computer (id 7). -/
def stDone : St :=
  { bookings := [sampleBooking 1 7 1 2 60 120 BStatus.completed]
    computers := [{ id := 7, status := CStatus.available }]
    nextId := 2 }

/-- A store with one pending booking (id 1) on a computer (id 7) that is in
maintenance. -/
def stMaint : St :=
  { bookings := [sampleBooking 1 7 1 2 60 120 BStatus.pending]
    computers := [{ id := 7, status := CStatus.maintenance }]
    nextId := 2 }

/-- A store with an expired approved booking and a rejected booking. -/
def stMix : St :=
  { bookings := [bExp1, bRej]
    computers := [{ id := 7, status := CStatus.booked },
                  { id := 8, status := CStatus.available }]
    nextId := 3 }

/-- A store with two expired approved bookings on two booked computers. -/
def stTwo : St :=
  { bookings := [bExp1, bExp2]
    computers := [{ id := 7, status := CStatus.booked },
                  { id := 8, status := CStatus.booked }]
    nextId := 3 }

/-- A store whose only booking is approved and expired, on a computer that is
in maintenance. -/
def stMaintApproved : St :=
  { bookings := [bExp1]
    computers := [{ id := 7, status := CStatus.maintenance }]
    nextId := 2 }

/-- A fault oracle that fails exactly the booking with id 1. -/
def faultOn1 : Nat → Bool := fun n => n == 1

/-- A completely filled booking form whose start date falls on the closure day
(day 7; `7 % 7 = 0` = Sunday). -/
def fSun : BookingForm :=
  { selectedComputer := some 7, startDate := some 7, endDate := some 8,
    startTime := some 60, endTime := some 120, reason := "analysis",
    problemStatement := "p", datasetType := "Image", datasetLink := "l",
    bottleneckExplanation := "b", datasetSize := 2 }

/-- A complete create-request body referencing computer 7. -/
def reqFull : CreateReq :=
  { computerId := some 7, startDate := some 1, endDate := some 1,
    startTime := some 60, endTime := some 180, reason := some "train" }

/-- A store holding only a booked computer (id 7). -/
def stBookedComp : St :=
  { bookings := []
    computers := [{ id := 7, status := CStatus.booked }]
    nextId := 5 }

/-! ## Helper lemmas about document updates -/

theorem updateBooking_map_core (bs : List Booking) (bid : Nat)
    (f : Booking → Booking) (hf : ∀ b, coreOf (f b) = coreOf b) :
    (updateBooking bs bid f).map coreOf = bs.map coreOf := by
  induction bs with
  | nil => rfl
  | cons b rest ih =>
    unfold updateBooking
    by_cases h : b.id == bid
    · simp [h, hf]
    · simp [h, ih]

theorem updateBooking_map_id (bs : List Booking) (bid : Nat)
    (f : Booking → Booking) (hf : ∀ b, coreOf (f b) = coreOf b) :
    (updateBooking bs bid f).map Booking.id = bs.map Booking.id := by
  have h1 := updateBooking_map_core bs bid f hf
  have h2 : ∀ l : List Booking, l.map Booking.id = (l.map coreOf).map Prod.fst := by
    intro l
    simp [List.map_map, coreOf, Function.comp]
  rw [h2, h2, h1]

theorem mem_updateBooking {bs : List Booking} {bid : Nat} {f : Booking → Booking}
    {b2 : Booking} (h : b2 ∈ updateBooking bs bid f) :
    b2 ∈ bs ∨ ∃ b ∈ bs, b.id = bid ∧ b2 = f b := by
  induction bs with
  | nil => simp [updateBooking] at h
  | cons b rest ih =>
    unfold updateBooking at h
    by_cases hb : b.id == bid
    · simp [hb] at h
      rcases h with h | h
      · exact Or.inr ⟨b, by simp, by simpa using hb, h⟩
      · exact Or.inl (by simp [h])
    · simp [hb] at h
      rcases h with h | h
      · exact Or.inl (by simp [h])
      · rcases ih h with h2 | ⟨b3, hb3, hid, he⟩
        · exact Or.inl (by simp [h2])
        · exact Or.inr ⟨b3, by simp [hb3], hid, he⟩

theorem updateBooking_mem_of_ne {bs : List Booking} {bid : Nat}
    {f : Booking → Booking} {b : Booking} (hb : b ∈ bs) (hne : b.id ≠ bid) :
    b ∈ updateBooking bs bid f := by
  induction bs with
  | nil => simp at hb
  | cons a rest ih =>
    unfold updateBooking
    rcases List.mem_cons.mp hb with h | h
    · subst h
      have : ¬ (b.id == bid) := by simpa using hne
      simp [this]
    · by_cases ha : a.id == bid
      · simp [ha]
        exact Or.inr h
      · simp [ha]
        exact Or.inr (ih h)

theorem mem_updateBooking_nodup {bs : List Booking} {bid : Nat}
    {f : Booking → Booking} {b2 : Booking}
    (hnd : (bs.map Booking.id).Nodup) (h : b2 ∈ updateBooking bs bid f) :
    (b2 ∈ bs ∧ b2.id ≠ bid) ∨ ∃ b ∈ bs, b.id = bid ∧ b2 = f b := by
  induction bs with
  | nil => simp [updateBooking] at h
  | cons b rest ih =>
    unfold updateBooking at h
    simp only [List.map_cons, List.nodup_cons] at hnd
    by_cases hb : b.id == bid
    · simp [hb] at h
      rcases h with h | h
      · exact Or.inr ⟨b, by simp, by simpa using hb, h⟩
      · refine Or.inl ⟨by simp [h], ?_⟩
        intro hc
        have hbid : b.id = bid := by simpa using hb
        exact hnd.1 (by rw [← hc, hbid] at *; exact List.mem_map_of_mem Booking.id h)
    · simp [hb] at h
      rcases h with h | h
      · subst h
        exact Or.inl ⟨by simp, by simpa using hb⟩
      · rcases ih hnd.2 h with ⟨h2, hne⟩ | ⟨b3, hb3, hid, he⟩
        · exact Or.inl ⟨by simp [h2], hne⟩
        · exact Or.inr ⟨b3, by simp [hb3], hid, he⟩

theorem updateBooking_exists_update {bs : List Booking} {bid : Nat}
    {f : Booking → Booking} (h : bid ∈ bs.map Booking.id) :
    ∃ b ∈ bs, b.id = bid ∧ f b ∈ updateBooking bs bid f := by
  induction bs with
  | nil => simp at h
  | cons b rest ih =>
    by_cases hb : b.id == bid
    · refine ⟨b, by simp, by simpa using hb, ?_⟩
      unfold updateBooking
      simp [hb]
    · have hmem : bid ∈ rest.map Booking.id := by
        rcases List.mem_map.mp h with ⟨x, hx, hid⟩
        rcases List.mem_cons.mp hx with rfl | hx2
        · exact absurd hid (by simpa using hb)
        · exact List.mem_map.mpr ⟨x, hx2, hid⟩
      rcases ih hmem with ⟨b3, hb3, hid, hm⟩
      refine ⟨b3, by simp [hb3], hid, ?_⟩
      unfold updateBooking
      simp [hb, hm]

theorem booking_id_inj {bs : List Booking} (hnd : (bs.map Booking.id).Nodup)
    {a b : Booking} (ha : a ∈ bs) (hb : b ∈ bs) (hid : a.id = b.id) : a = b := by
  induction bs with
  | nil => simp at ha
  | cons x rest ih =>
    simp only [List.map_cons, List.nodup_cons] at hnd
    rcases List.mem_cons.mp ha with rfl | ha2
    · rcases List.mem_cons.mp hb with rfl | hb2
      · rfl
      · exact absurd (hid ▸ List.mem_map_of_mem Booking.id hb2) hnd.1
    · rcases List.mem_cons.mp hb with rfl | hb2
      · exact absurd (hid ▸ List.mem_map_of_mem Booking.id ha2) hnd.1
      · exact ih hnd.2 ha2 hb2

theorem updateComputer_map_id (cs : List Computer) (cid : Nat)
    (f : Computer → Computer) (hf : ∀ c, (f c).id = c.id) :
    (updateComputer cs cid f).map Computer.id = cs.map Computer.id := by
  induction cs with
  | nil => rfl
  | cons c rest ih =>
    unfold updateComputer
    by_cases h : c.id == cid
    · simp [h, hf]
    · simp [h, ih]

theorem updateComputer_mem_of_ne {cs : List Computer} {cid : Nat}
    {f : Computer → Computer} {c : Computer} (hc : c ∈ cs) (hne : c.id ≠ cid) :
    c ∈ updateComputer cs cid f := by
  induction cs with
  | nil => simp at hc
  | cons a rest ih =>
    unfold updateComputer
    rcases List.mem_cons.mp hc with h | h
    · subst h
      have : ¬ (c.id == cid) := by simpa using hne
      simp [this]
    · by_cases ha : a.id == cid
      · simp [ha]
        exact Or.inr h
      · simp [ha]
        exact Or.inr (ih h)

theorem mem_updateComputer_nodup {cs : List Computer} {cid : Nat}
    {f : Computer → Computer} {c2 : Computer}
    (hnd : (cs.map Computer.id).Nodup) (h : c2 ∈ updateComputer cs cid f) :
    (c2 ∈ cs ∧ c2.id ≠ cid) ∨ ∃ c ∈ cs, c.id = cid ∧ c2 = f c := by
  induction cs with
  | nil => simp [updateComputer] at h
  | cons c rest ih =>
    unfold updateComputer at h
    simp only [List.map_cons, List.nodup_cons] at hnd
    by_cases hc : c.id == cid
    · simp [hc] at h
      rcases h with h | h
      · exact Or.inr ⟨c, by simp, by simpa using hc, h⟩
      · refine Or.inl ⟨by simp [h], ?_⟩
        intro hceq
        have hcid : c.id = cid := by simpa using hc
        exact hnd.1 (by rw [← hceq, hcid] at *; exact List.mem_map_of_mem Computer.id h)
    · simp [hc] at h
      rcases h with h | h
      · subst h
        exact Or.inl ⟨by simp, by simpa using hc⟩
      · rcases ih hnd.2 h with ⟨h2, hne⟩ | ⟨c3, hc3, hid, he⟩
        · exact Or.inl ⟨by simp [h2], hne⟩
        · exact Or.inr ⟨c3, by simp [hc3], hid, he⟩

theorem computer_id_inj {cs : List Computer} (hnd : (cs.map Computer.id).Nodup)
    {a b : Computer} (ha : a ∈ cs) (hb : b ∈ cs) (hid : a.id = b.id) : a = b := by
  induction cs with
  | nil => simp at ha
  | cons x rest ih =>
    simp only [List.map_cons, List.nodup_cons] at hnd
    rcases List.mem_cons.mp ha with rfl | ha2
    · rcases List.mem_cons.mp hb with rfl | hb2
      · rfl
      · exact absurd (hid ▸ List.mem_map_of_mem Computer.id hb2) hnd.1
    · rcases List.mem_cons.mp hb with rfl | hb2
      · exact absurd (hid ▸ List.mem_map_of_mem Computer.id ha2) hnd.1
      · exact ih hnd.2 ha2 hb2

theorem findBooking_mem {bs : List Booking} {bid : Nat} {b : Booking}
    (h : findBooking bs bid = some b) : b ∈ bs ∧ b.id = bid := by
  induction bs with
  | nil => simp [findBooking] at h
  | cons a rest ih =>
    unfold findBooking at h
    by_cases ha : a.id == bid
    · simp [ha] at h
      subst h
      exact ⟨by simp, by simpa using ha⟩
    · simp [ha] at h
      rcases ih h with ⟨hm, hid⟩
      exact ⟨by simp [hm], hid⟩

theorem findComputer_none {cs : List Computer} {cid : Nat}
    (h : findComputer cs cid = none) : ∀ c ∈ cs, c.id ≠ cid := by
  induction cs with
  | nil => simp
  | cons a rest ih =>
    unfold findComputer at h
    by_cases ha : a.id == cid
    · simp [ha] at h
    · simp [ha] at h
      intro c hc
      rcases List.mem_cons.mp hc with rfl | h2
      · simpa using ha
      · exact ih h c h2

/-! ## Lemmas about the sweeper -/

theorem handleExpiredBooking_fault_true {fault : Nat → Bool} {s : St} {b : Booking}
    (h : fault b.id = true) : handleExpiredBooking fault s b = s := by
  simp [handleExpiredBooking, handleExpiredBookingEx, h]

theorem handleExpiredBooking_fault_false {fault : Nat → Bool} {s : St} {b : Booking}
    (h : fault b.id = false) :
    handleExpiredBooking fault s b = handleExpiredBookingBody s b := by
  simp [handleExpiredBooking, handleExpiredBookingEx, h]

theorem expiredPred_status {now : Now} {b : Booking}
    (h : expiredPred now b = true) : b.status = BStatus.approved := by
  have := (Bool.and_eq_true _ _).mp h
  simpa using this.1

theorem expiredPred_setCompleted (now : Now) (b : Booking) :
    expiredPred now (setCompleted b) = false := by
  simp [expiredPred, setCompleted]

theorem mem_expiredBookings {now : Now} {st : St} {b : Booking} :
    b ∈ expiredBookings now st ↔ b ∈ st.bookings ∧ expiredPred now b = true := by
  simp [expiredBookings, List.mem_filter]

theorem coreOf_setCompleted (b : Booking) : coreOf (setCompleted b) = coreOf b := rfl

theorem coreOf_applyTarget (t : String) (r : Option String) (b : Booking) :
    coreOf (applyTarget t r b) = coreOf b := by
  unfold applyTarget coreOf
  by_cases h : t == "rejected" <;> simp [h]

theorem map_id_eq_of_map_core {l1 l2 : List Booking}
    (h : l1.map coreOf = l2.map coreOf) :
    l1.map Booking.id = l2.map Booking.id := by
  have h2 : ∀ l : List Booking, l.map Booking.id = (l.map coreOf).map Prod.fst := by
    intro l
    simp [List.map_map, coreOf, Function.comp]
  rw [h2, h2, h]

theorem fold_map_core (fault : Nat → Bool) :
    ∀ (L : List Booking) (s : St),
      ((L.foldl (handleExpiredBooking fault) s).bookings).map coreOf =
        s.bookings.map coreOf := by
  intro L
  induction L with
  | nil => intro s; rfl
  | cons a rest ih =>
    intro s
    simp only [List.foldl_cons]
    rw [ih]
    cases hfa : fault a.id
    · rw [handleExpiredBooking_fault_false hfa]
      exact updateBooking_map_core s.bookings a.id setCompleted coreOf_setCompleted
    · rw [handleExpiredBooking_fault_true hfa]

theorem fold_nextId (fault : Nat → Bool) :
    ∀ (L : List Booking) (s : St),
      (L.foldl (handleExpiredBooking fault) s).nextId = s.nextId := by
  intro L
  induction L with
  | nil => intro s; rfl
  | cons a rest ih =>
    intro s
    simp only [List.foldl_cons]
    rw [ih]
    cases hfa : fault a.id
    · rw [handleExpiredBooking_fault_false hfa]; rfl
    · rw [handleExpiredBooking_fault_true hfa]

theorem fold_mem_booking (fault : Nat → Bool) :
    ∀ (L : List Booking) (s : St) (b : Booking),
      b ∈ s.bookings → (∀ a ∈ L, b.id ≠ a.id) →
      b ∈ (L.foldl (handleExpiredBooking fault) s).bookings := by
  intro L
  induction L with
  | nil =>
    intro s b hb _
    simpa using hb
  | cons a rest ih =>
    intro s b hb hne
    simp only [List.foldl_cons]
    apply ih
    · cases hfa : fault a.id
      · rw [handleExpiredBooking_fault_false hfa]
        exact updateBooking_mem_of_ne hb (hne a (by simp))
      · rw [handleExpiredBooking_fault_true hfa]
        exact hb
    · intro x hx
      exact hne x (by simp [hx])

theorem updateComputer_mem_found :
    ∀ (cs : List Computer) (cid : Nat) (c0 c : Computer) (f : Computer → Computer),
      findComputer cs cid = some c0 → c0.status = CStatus.booked →
      c ∈ cs → c.status = CStatus.maintenance →
      c ∈ updateComputer cs cid f := by
  intro cs
  induction cs with
  | nil =>
    intro cid c0 c f hf
    simp [findComputer] at hf
  | cons x rest ih =>
    intro cid c0 c f hf hb hc hm
    unfold findComputer at hf
    unfold updateComputer
    by_cases hx : x.id == cid
    · simp only [hx, if_true] at hf ⊢
      have hx0 : x = c0 := by simpa using hf
      rcases List.mem_cons.mp hc with rfl | h2
      · rw [hx0, hb] at hm
        simp at hm
      · exact List.mem_cons_of_mem _ h2
    · simp only [hx, if_false] at hf ⊢
      rcases List.mem_cons.mp hc with rfl | h2
      · exact List.mem_cons_self _ _
      · exact List.mem_cons_of_mem _ (ih cid c0 c f hf hb h2 hm)

theorem releaseIfBooked_maintenance {cs : List Computer} {cid : Nat} {c : Computer}
    (hc : c ∈ cs) (hm : c.status = CStatus.maintenance) :
    c ∈ releaseIfBooked cs cid := by
  unfold releaseIfBooked
  cases hf : findComputer cs cid with
  | none => exact hc
  | some c0 =>
    cases hb : c0.status == CStatus.booked
    · simp only [hb, if_false]
      exact hc
    · simp only [hb, if_true]
      exact updateComputer_mem_found cs cid c0 c _ hf (by simpa using hb) hc hm

theorem handle_bookings (fault : Nat → Bool) (s : St) (x : Booking)
    (hfa : fault x.id = false) :
    (handleExpiredBooking fault s x).bookings =
      updateBooking s.bookings x.id setCompleted := by
  rw [handleExpiredBooking_fault_false hfa]
  rfl

theorem handle_map_id (fault : Nat → Bool) (s : St) (x : Booking) :
    (handleExpiredBooking fault s x).bookings.map Booking.id =
      s.bookings.map Booking.id := by
  cases hfa : fault x.id
  · rw [handle_bookings fault s x hfa]
    exact updateBooking_map_id s.bookings x.id setCompleted coreOf_setCompleted
  · rw [handleExpiredBooking_fault_true hfa]

theorem updateBooking_exists_completed {bs : List Booking} {bid : Nat}
    (h : bid ∈ bs.map Booking.id) :
    ∃ b2 ∈ updateBooking bs bid setCompleted,
      b2.id = bid ∧ b2.status = BStatus.completed := by
  rcases updateBooking_exists_update (f := setCompleted) h with ⟨b, hb, hid, hm⟩
  exact ⟨setCompleted b, hm, by simpa [setCompleted] using hid, rfl⟩

theorem fold_preserves_completed (fault : Nat → Bool) :
    ∀ (L : List Booking) (s : St) (i : Nat),
      (∀ a ∈ L, a.id ≠ i) →
      (∃ b2 ∈ s.bookings, b2.id = i ∧ b2.status = BStatus.completed) →
      ∃ b2 ∈ (L.foldl (handleExpiredBooking fault) s).bookings,
        b2.id = i ∧ b2.status = BStatus.completed := by
  intro L
  induction L with
  | nil =>
    intro s i _ h
    simpa using h
  | cons a rest ih =>
    intro s i hne hex
    simp only [List.foldl_cons]
    apply ih
    · intro x hx
      exact hne x (by simp [hx])
    · rcases hex with ⟨b2, hb2, hid, hst⟩
      cases hfa : fault a.id
      · rw [handle_bookings fault s a hfa]
        refine ⟨b2, ?_, hid, hst⟩
        refine updateBooking_mem_of_ne hb2 ?_
        rw [hid]
        intro hc
        exact hne a (by simp) hc.symm
      · rw [handleExpiredBooking_fault_true hfa]
        exact ⟨b2, hb2, hid, hst⟩

theorem sweep_fold_completed (fault : Nat → Bool) :
    ∀ (L : List Booking) (s : St),
      (L.map Booking.id).Nodup →
      (∀ a ∈ L, a.id ∈ s.bookings.map Booking.id) →
      ∀ a ∈ L, fault a.id = false →
        ∃ b2 ∈ (L.foldl (handleExpiredBooking fault) s).bookings,
          b2.id = a.id ∧ b2.status = BStatus.completed := by
  intro L
  induction L with
  | nil =>
    intro s _ _ a ha
    simp at ha
  | cons x rest ih =>
    intro s hndL hids a ha hfa
    simp only [List.foldl_cons]
    simp only [List.map_cons, List.nodup_cons] at hndL
    rcases List.mem_cons.mp ha with rfl | ha2
    · apply fold_preserves_completed
      · intro y hy hc
        exact hndL.1 (hc ▸ List.mem_map_of_mem Booking.id hy)
      · rw [handle_bookings fault s a hfa]
        exact updateBooking_exists_completed (hids a (by simp))
    · apply ih _ hndL.2
      · intro y hy
        rw [handle_map_id]
        exact hids y (by simp [hy])
      · exact ha2
      · exact hfa

theorem sweep_fold_no_expired (now : Now) :
    ∀ (L : List Booking) (s : St),
      (s.bookings.map Booking.id).Nodup →
      (∀ b2 ∈ s.bookings, expiredPred now b2 = true → b2.id ∈ L.map Booking.id) →
      ∀ b2 ∈ (L.foldl (handleExpiredBooking noFault) s).bookings,
        expiredPred now b2 = false := by
  intro L
  induction L with
  | nil =>
    intro s _ hsub b2 hb2
    simp only [List.foldl_nil] at hb2
    cases hexp : expiredPred now b2
    · rfl
    · exact absurd (hsub b2 hb2 hexp) (by simp)
  | cons a rest ih =>
    intro s hnd hsub
    simp only [List.foldl_cons]
    apply ih
    · rw [handle_map_id]
      exact hnd
    · intro b2 hb2 hexp
      rw [handle_bookings noFault s a rfl] at hb2
      rcases mem_updateBooking_nodup hnd hb2 with ⟨hmem, hne⟩ | ⟨b, _, _, rfl⟩
      · have hin := hsub b2 hmem hexp
        simp only [List.map_cons, List.mem_cons] at hin
        rcases hin with h | h
        · exact absurd h hne
        · exact h
      · rw [expiredPred_setCompleted] at hexp
        exact absurd hexp (by simp)

theorem shortRule_iff {sd ed a b : Nat} (h : ¬ ed < sd) :
    (ed - sd == 0 && decide ((a - b) / 60 < 1)) = true ↔ ed = sd ∧ a - b < 60 := by
  simp only [Bool.and_eq_true, beq_iff_eq, decide_eq_true_eq]
  omega

theorem validate_missing_iff (f : BookingForm) :
    validateBookingForm f = some BookingErr.missingFields ↔ formMissing f = true := by
  unfold validateBookingForm
  split_ifs <;> simp_all

theorem validate_closureStart_iff (f : BookingForm) :
    validateBookingForm f = some BookingErr.closureDayStart ↔
      formMissing f = false ∧ getDay (f.startDate.getD 0) = 0 := by
  unfold validateBookingForm
  split_ifs <;> simp_all

theorem validate_closureEnd_iff (f : BookingForm) :
    validateBookingForm f = some BookingErr.closureDayEnd ↔
      formMissing f = false ∧ getDay (f.startDate.getD 0) ≠ 0 ∧
        getDay (f.endDate.getD 0) = 0 := by
  unfold validateBookingForm
  split_ifs <;> simp_all

theorem validate_endBeforeStart_iff (f : BookingForm) :
    validateBookingForm f = some BookingErr.endBeforeStart ↔
      formMissing f = false ∧ getDay (f.startDate.getD 0) ≠ 0 ∧
        getDay (f.endDate.getD 0) ≠ 0 ∧ f.endDate.getD 0 < f.startDate.getD 0 := by
  unfold validateBookingForm
  split_ifs <;> simp_all

theorem validate_durationTooLong_iff (f : BookingForm) :
    validateBookingForm f = some BookingErr.durationTooLong ↔
      formMissing f = false ∧ getDay (f.startDate.getD 0) ≠ 0 ∧
        getDay (f.endDate.getD 0) ≠ 0 ∧ ¬ f.endDate.getD 0 < f.startDate.getD 0 ∧
        f.endDate.getD 0 - f.startDate.getD 0 + 1 > 7 := by
  unfold validateBookingForm
  split_ifs <;> simp_all

theorem validate_endBeforeStartInstant_iff (f : BookingForm) :
    validateBookingForm f = some BookingErr.endBeforeStartInstant ↔
      formMissing f = false ∧ getDay (f.startDate.getD 0) ≠ 0 ∧
        getDay (f.endDate.getD 0) ≠ 0 ∧ ¬ f.endDate.getD 0 < f.startDate.getD 0 ∧
        ¬ f.endDate.getD 0 - f.startDate.getD 0 + 1 > 7 ∧
        instantOf (f.endDate.getD 0) (f.endTime.getD 0) <
          instantOf (f.startDate.getD 0) (f.startTime.getD 0) := by
  unfold validateBookingForm
  split_ifs <;> simp_all

theorem validate_durationTooShort_iff (f : BookingForm) :
    validateBookingForm f = some BookingErr.durationTooShort ↔
      formMissing f = false ∧ getDay (f.startDate.getD 0) ≠ 0 ∧
        getDay (f.endDate.getD 0) ≠ 0 ∧ ¬ f.endDate.getD 0 < f.startDate.getD 0 ∧
        ¬ f.endDate.getD 0 - f.startDate.getD 0 + 1 > 7 ∧
        ¬ instantOf (f.endDate.getD 0) (f.endTime.getD 0) <
            instantOf (f.startDate.getD 0) (f.startTime.getD 0) ∧
        f.endDate.getD 0 = f.startDate.getD 0 ∧
        instantOf (f.endDate.getD 0) (f.endTime.getD 0) -
            instantOf (f.startDate.getD 0) (f.startTime.getD 0) < 60 := by
  unfold validateBookingForm
  split_ifs with h1 h2 h3 h4 h5 h6 h7
  · simp_all
  · simp_all
  · simp_all
  · simp_all
  · simp_all
  · simp_all
  · simp only [Bool.and_eq_true, beq_iff_eq, decide_eq_true_eq] at h7
    simp only [eq_self_iff_true, true_iff]
    exact ⟨by simpa using h1, by simpa using h2, by simpa using h3, h4, h5, h6,
      by omega, by omega⟩
  · simp only [Bool.and_eq_true, beq_iff_eq, decide_eq_true_eq] at h7
    constructor
    · intro h
      simp at h
    · rintro ⟨-, -, -, -, -, -, hb, hc⟩
      exact absurd ⟨by omega, by omega⟩ h7

theorem validate_none_iff (f : BookingForm) :
    validateBookingForm f = none ↔
      formMissing f = false ∧ getDay (f.startDate.getD 0) ≠ 0 ∧
        getDay (f.endDate.getD 0) ≠ 0 ∧ ¬ f.endDate.getD 0 < f.startDate.getD 0 ∧
        ¬ f.endDate.getD 0 - f.startDate.getD 0 + 1 > 7 ∧
        ¬ instantOf (f.endDate.getD 0) (f.endTime.getD 0) <
            instantOf (f.startDate.getD 0) (f.startTime.getD 0) ∧
        ¬ (f.endDate.getD 0 = f.startDate.getD 0 ∧
            instantOf (f.endDate.getD 0) (f.endTime.getD 0) -
              instantOf (f.startDate.getD 0) (f.startTime.getD 0) < 60) := by
  unfold validateBookingForm
  split_ifs with h1 h2 h3 h4 h5 h6 h7
  · simp_all
  · simp_all
  · simp_all
  · simp_all
  · simp_all
  · simp_all
  · simp only [Bool.and_eq_true, beq_iff_eq, decide_eq_true_eq] at h7
    constructor
    · intro h
      simp at h
    · rintro ⟨-, -, -, -, -, -, hns⟩
      exact absurd ⟨by omega, by omega⟩ hns
  · simp only [Bool.and_eq_true, beq_iff_eq, decide_eq_true_eq] at h7
    simp only [true_iff, eq_self_iff_true]
    refine ⟨by simpa using h1, by simpa using h2, by simpa using h3, h4, h5, h6, ?_⟩
    rintro ⟨hb, hc⟩
    exact h7 ⟨by omega, by omega⟩

theorem not_blank_ne_empty {s : String} (h : isBlank s = false) : s ≠ "" := by
  intro hc
  subst hc
  exact absurd h (by decide)

theorem reqOfForm_complete {f : BookingForm} (h : formMissing f = false) :
    ((reqOfForm f).computerId.isNone || (reqOfForm f).startDate.isNone ||
      (reqOfForm f).endDate.isNone || (reqOfForm f).startTime.isNone ||
      (reqOfForm f).endTime.isNone || ((reqOfForm f).reason.getD "" == "")) = false := by
  simp only [formMissing, Bool.or_eq_false_iff] at h
  simp [reqOfForm, h.1.1.1.1.1.1.1.1.1.1, h.1.1.1.1.1.1.1.1.1.2, h.1.1.1.1.1.1.1.1.2,
    h.1.1.1.1.1.1.1.2, h.1.1.1.1.1.1.2, not_blank_ne_empty h.1.1.1.1.1.2]

theorem createServer_error {st : St} {uid : Nat} {r : CreateReq} {e : BookingErr}
    (h : createBookingServer st uid r = Except.error e) :
    e = BookingErr.missingFields ∨ e = BookingErr.resourceNotFound := by
  unfold createBookingServer at h
  split_ifs at h
  · exact Or.inl (by simpa using h.symm)
  · cases hf : findComputer st.computers (r.computerId.getD 0) with
    | none =>
      rw [hf] at h
      exact Or.inr (by simpa using h.symm)
    | some c =>
      rw [hf] at h
      simp at h

theorem server_not_missing {st : St} {uid : Nat} {f : BookingForm}
    (hv : formMissing f = false) :
    createBookingServer st uid (reqOfForm f) ≠ Except.error BookingErr.missingFields := by
  unfold createBookingServer
  rw [if_neg (by simp [reqOfForm_complete hv])]
  cases hf : findComputer st.computers ((reqOfForm f).computerId.getD 0) with
  | none => simp
  | some c => simp

theorem server_rnf_iff {st : St} {uid : Nat} {f : BookingForm}
    (hv : formMissing f = false) :
    createBookingServer st uid (reqOfForm f) = Except.error BookingErr.resourceNotFound ↔
      findComputer st.computers (f.selectedComputer.getD 0) = none := by
  unfold createBookingServer
  rw [if_neg (by simp [reqOfForm_complete hv])]
  cases hf : findComputer st.computers ((reqOfForm f).computerId.getD 0) with
  | none => simpa using hf
  | some c =>
    simp only [hf]
    constructor
    · intro h
      simp at h
    · intro h
      have hf2 : findComputer st.computers (f.selectedComputer.getD 0) = some c := hf
      rw [h] at hf2
      simp at hf2

theorem server_ok {st : St} {uid : Nat} {f : BookingForm} {c : Computer}
    (hv : formMissing f = false)
    (hf : findComputer st.computers (f.selectedComputer.getD 0) = some c) :
    createBookingServer st uid (reqOfForm f) =
      Except.ok { st with bookings := st.bookings ++ [newBookingOf st uid (reqOfForm f)],
                          nextId := st.nextId + 1 } := by
  unfold createBookingServer
  rw [if_neg (by simp [reqOfForm_complete hv])]
  have hf2 : findComputer st.computers ((reqOfForm f).computerId.getD 0) = some c := hf
  rw [hf2]

theorem server_ok_inv {st : St} {uid : Nat} {r : CreateReq} {st2 : St}
    (h : createBookingServer st uid r = Except.ok st2) :
    st2.bookings = st.bookings ++ [newBookingOf st uid r] := by
  unfold createBookingServer at h
  split_ifs at h
  cases hf : findComputer st.computers (r.computerId.getD 0) with
  | none =>
    rw [hf] at h
    simp at h
  | some c =>
    rw [hf] at h
    simp only [Except.ok.injEq] at h
    rw [← h]

theorem submit_of_validate_some {st : St} {uid : Nat} {f : BookingForm} {e : BookingErr}
    (h : validateBookingForm f = some e) :
    submitBooking st uid f = Except.error e := by
  unfold submitBooking
  rw [h]

theorem submit_of_validate_none {st : St} {uid : Nat} {f : BookingForm}
    (h : validateBookingForm f = none) :
    submitBooking st uid f = createBookingServer st uid (reqOfForm f) := by
  unfold submitBooking
  rw [h]

theorem submit_error_cases {st : St} {uid : Nat} {f : BookingForm} {e : BookingErr}
    (h : submitBooking st uid f = Except.error e) :
    validateBookingForm f = some e ∨
      (validateBookingForm f = none ∧
        createBookingServer st uid (reqOfForm f) = Except.error e) := by
  unfold submitBooking at h
  cases hv : validateBookingForm f with
  | some e2 =>
    rw [hv] at h
    simp only [Except.error.injEq] at h
    subst h
    exact Or.inl rfl
  | none =>
    rw [hv] at h
    exact Or.inr ⟨rfl, h⟩

theorem validate_ne_rnf (f : BookingForm) :
    validateBookingForm f ≠ some BookingErr.resourceNotFound := by
  unfold validateBookingForm
  split_ifs <;> simp

theorem submit_client_error_iff {st : St} {uid : Nat} {f : BookingForm} {e : BookingErr}
    (he1 : e ≠ BookingErr.missingFields) (he2 : e ≠ BookingErr.resourceNotFound) :
    submitBooking st uid f = Except.error e ↔ validateBookingForm f = some e := by
  constructor
  · intro h
    rcases submit_error_cases h with h2 | ⟨_, hs⟩
    · exact h2
    · rcases createServer_error hs with rfl | rfl
      · exact absurd rfl he1
      · exact absurd rfl he2
  · exact submit_of_validate_some

theorem submit_missing_iff {st : St} {uid : Nat} {f : BookingForm} :
    submitBooking st uid f = Except.error BookingErr.missingFields ↔
      formMissing f = true := by
  constructor
  · intro h
    rcases submit_error_cases h with h2 | ⟨hv, hs⟩
    · exact (validate_missing_iff f).mp h2
    · exact absurd hs (server_not_missing ((validate_none_iff f).mp hv).1)
  · intro h
    exact submit_of_validate_some ((validate_missing_iff f).mpr h)

theorem submit_rnf_iff {st : St} {uid : Nat} {f : BookingForm} :
    submitBooking st uid f = Except.error BookingErr.resourceNotFound ↔
      validateBookingForm f = none ∧
        findComputer st.computers (f.selectedComputer.getD 0) = none := by
  constructor
  · intro h
    rcases submit_error_cases h with h2 | ⟨hv, hs⟩
    · exact absurd h2 (validate_ne_rnf f)
    · exact ⟨hv, (server_rnf_iff ((validate_none_iff f).mp hv).1).mp hs⟩
  · rintro ⟨hv, hf⟩
    rw [submit_of_validate_none hv]
    exact (server_rnf_iff ((validate_none_iff f).mp hv).1).mpr hf

theorem submit_ok_inv {st : St} {uid : Nat} {f : BookingForm} {st2 : St}
    (h : submitBooking st uid f = Except.ok st2) :
    st2.bookings = st.bookings ++ [newBookingOf st uid (reqOfForm f)] := by
  unfold submitBooking at h
  cases hv : validateBookingForm f with
  | some e =>
    rw [hv] at h
    simp at h
  | none =>
    rw [hv] at h
    exact server_ok_inv h

theorem fold_mem_maintenance (fault : Nat → Bool) :
    ∀ (L : List Booking) (s : St) (c : Computer),
      c ∈ s.computers → c.status = CStatus.maintenance →
      c ∈ (L.foldl (handleExpiredBooking fault) s).computers := by
  intro L
  induction L with
  | nil =>
    intro s c hc _
    simpa using hc
  | cons a rest ih =>
    intro s c hc hm
    simp only [List.foldl_cons]
    refine ih _ c ?_ hm
    cases hfa : fault a.id
    · rw [handleExpiredBooking_fault_false hfa]
      exact releaseIfBooked_maintenance hc hm
    · rw [handleExpiredBooking_fault_true hfa]
      exact hc

theorem findComputer_mem {cs : List Computer} {cid : Nat} {c : Computer}
    (h : findComputer cs cid = some c) : c ∈ cs ∧ c.id = cid := by
  induction cs with
  | nil => simp [findComputer] at h
  | cons a rest ih =>
    unfold findComputer at h
    by_cases ha : a.id == cid
    · simp [ha] at h
      subst h
      exact ⟨by simp, by simpa using ha⟩
    · simp [ha] at h
      rcases ih h with ⟨hm, hid⟩
      exact ⟨by simp [hm], hid⟩

theorem releaseIfBooked_map_id (cs : List Computer) (cid : Nat) :
    (releaseIfBooked cs cid).map Computer.id = cs.map Computer.id := by
  unfold releaseIfBooked
  cases hf : findComputer cs cid with
  | none => rfl
  | some c =>
    dsimp only
    cases hb : c.status == CStatus.booked
    · rw [if_neg (by simp [hb])]
    · rw [if_pos (by simp [hb])]
      exact updateComputer_map_id cs cid _ (fun _ => rfl)

theorem releaseIfBooked_booked_mem {cs : List Computer} {cid : Nat} {c2 : Computer}
    (hnd : (cs.map Computer.id).Nodup)
    (h : c2 ∈ releaseIfBooked cs cid) (hb2 : c2.status = CStatus.booked) :
    c2 ∈ cs ∧ c2.id ≠ cid := by
  unfold releaseIfBooked at h
  cases hf : findComputer cs cid with
  | none =>
    rw [hf] at h
    exact ⟨h, findComputer_none hf c2 h⟩
  | some c =>
    rw [hf] at h
    dsimp only at h
    rcases findComputer_mem hf with ⟨hcm, hcid⟩
    cases hb : c.status == CStatus.booked
    · rw [if_neg (by simp [hb])] at h
      refine ⟨h, ?_⟩
      intro hc
      have hce : c2 = c := computer_id_inj hnd h hcm (by rw [hc, hcid])
      rw [← hce, hb2] at hb
      simp at hb
    · rw [if_pos (by simp [hb])] at h
      rcases mem_updateComputer_nodup hnd h with ⟨hm, hne⟩ | ⟨c3, _, _, he⟩
      · exact ⟨hm, hne⟩
      · rw [he] at hb2
        simp at hb2

theorem handle_map_core (fault : Nat → Bool) (s : St) (x : Booking) :
    (handleExpiredBooking fault s x).bookings.map coreOf = s.bookings.map coreOf := by
  cases hfa : fault x.id
  · rw [handle_bookings fault s x hfa]
    exact updateBooking_map_core s.bookings x.id setCompleted coreOf_setCompleted
  · rw [handleExpiredBooking_fault_true hfa]

theorem WF_handle {fault : Nat → Bool} {s : St} {x : Booking}
    (hwf : WF s) (hx : coreOf x ∈ s.bookings.map coreOf) :
    WF (handleExpiredBooking fault s x) := by
  cases hfa : fault x.id
  case true =>
    rw [handleExpiredBooking_fault_true hfa]
    exact hwf
  case false =>
    rw [handleExpiredBooking_fault_false hfa]
    refine ⟨?_, ?_, ?_, ?_⟩
    · show ((updateBooking s.bookings x.id setCompleted).map Booking.id).Nodup
      rw [updateBooking_map_id _ _ _ coreOf_setCompleted]
      exact hwf.bNodup
    · show ((releaseIfBooked s.computers x.computerId).map Computer.id).Nodup
      rw [releaseIfBooked_map_id]
      exact hwf.cNodup
    · intro b2 hb2
      show b2.id < s.nextId
      rcases mem_updateBooking
          (show b2 ∈ updateBooking s.bookings x.id setCompleted from hb2) with
        hm | ⟨b, hb, _, rfl⟩
      · exact hwf.fresh b2 hm
      · simpa [setCompleted] using hwf.fresh b hb
    · intro c2 hc2 hb2
      have hrel : c2 ∈ releaseIfBooked s.computers x.computerId := hc2
      rcases releaseIfBooked_booked_mem hwf.cNodup hrel hb2 with ⟨hcm, hcne⟩
      rcases hwf.booked c2 hcm hb2 with ⟨w, hw, hwc, hwa⟩
      by_cases hwid : w.id = x.id
      · exfalso
        rcases List.mem_map.mp hx with ⟨x1, hx1, hcore⟩
        have hx1id : x1.id = x.id := congrArg Prod.fst hcore
        have hwx1 : w = x1 := booking_id_inj hwf.bNodup hw hx1 (by rw [hwid, hx1id])
        have hwcid : w.computerId = x.computerId := by
          rw [hwx1]
          exact congrArg Prod.snd hcore
        exact hcne (by rw [← hwc, hwcid])
      · exact ⟨w, updateBooking_mem_of_ne hw hwid, hwc, hwa⟩

theorem WF_fold (fault : Nat → Bool) :
    ∀ (L : List Booking) (s : St),
      WF s → (∀ a ∈ L, coreOf a ∈ s.bookings.map coreOf) →
      WF (L.foldl (handleExpiredBooking fault) s) := by
  intro L
  induction L with
  | nil =>
    intro s hwf _
    simpa using hwf
  | cons x rest ih =>
    intro s hwf hav
    simp only [List.foldl_cons]
    apply ih
    · exact WF_handle hwf (hav x (by simp))
    · intro a ha
      rw [handle_map_core]
      exact hav a (by simp [ha])

theorem WF_runSweep (now : Now) (st : St) (hwf : WF st) : WF (runSweep now st) := by
  show WF ((expiredBookings now st).foldl (handleExpiredBooking noFault) st)
  apply WF_fold
  · exact hwf
  · intro a ha
    exact List.mem_map_of_mem coreOf (mem_expiredBookings.mp ha).1

theorem applyTarget_id (t : String) (r : Option String) (b : Booking) :
    (applyTarget t r b).id = b.id :=
  congrArg Prod.fst (coreOf_applyTarget t r b)

theorem applyTarget_computerId (t : String) (r : Option String) (b : Booking) :
    (applyTarget t r b).computerId = b.computerId :=
  congrArg Prod.snd (coreOf_applyTarget t r b)

theorem applyTarget_approved (r : Option String) (b : Booking) :
    applyTarget "approved" r b = { b with status := BStatus.approved } := rfl

theorem WF_setStatus {st : St} {bid : Nat} {t : String} {r : Option String} {st2 : St}
    (hwf : WF st) (h : setBookingStatus st bid t r = Except.ok st2) : WF st2 := by
  unfold setBookingStatus at h
  by_cases hg1 : (t == "approved" || t == "rejected" || t == "cancelled")
  case neg =>
    rw [if_pos (by simpa using hg1)] at h
    simp at h
  case pos =>
  rw [if_neg (by simp [hg1])] at h
  by_cases hg2 : (t == "rejected" && (r.getD "" == ""))
  case pos =>
    rw [if_pos (by simpa using hg2)] at h
    simp at h
  case neg =>
  rw [if_neg (by simpa using hg2)] at h
  cases hf : findBooking st.bookings bid with
  | none =>
    rw [hf] at h
    simp at h
  | some b0 =>
    rw [hf] at h
    dsimp only at h
    simp only [Except.ok.injEq] at h
    rcases findBooking_mem hf with ⟨hb0m, hb0id⟩
    have hbk : st2.bookings = updateBooking st.bookings bid (applyTarget t r) := by
      rw [← h]
    have hni : st2.nextId = st.nextId := by
      rw [← h]
    have hcomp : st2.computers =
        (if (t == "approved") = true then
          updateComputer st.computers b0.computerId
            (fun c => { c with status := CStatus.booked })
        else if (t == "rejected" || t == "cancelled") = true then
          (if ((updateBooking st.bookings bid (applyTarget t r)).any fun w =>
                w.computerId == b0.computerId && w.status == BStatus.approved &&
                  w.id != bid) = true then
            st.computers
          else
            updateComputer st.computers b0.computerId
              (fun c => { c with status := CStatus.available }))
        else st.computers) := by
      rw [← h]
    refine ⟨?_, ?_, ?_, ?_⟩
    · rw [hbk, updateBooking_map_id _ _ _ (coreOf_applyTarget t r)]
      exact hwf.bNodup
    · rw [hcomp]
      by_cases hta : (t == "approved") = true
      · rw [if_pos hta, updateComputer_map_id st.computers b0.computerId
            (fun c => { c with status := CStatus.booked }) (fun _ => rfl)]
        exact hwf.cNodup
      · rw [if_neg hta]
        by_cases htr : (t == "rejected" || t == "cancelled") = true
        · rw [if_pos htr]
          by_cases hany : ((updateBooking st.bookings bid (applyTarget t r)).any fun w =>
              w.computerId == b0.computerId && w.status == BStatus.approved &&
                w.id != bid) = true
          · rw [if_pos hany]
            exact hwf.cNodup
          · rw [if_neg hany, updateComputer_map_id st.computers b0.computerId
                (fun c => { c with status := CStatus.available }) (fun _ => rfl)]
            exact hwf.cNodup
        · rw [if_neg htr]
          exact hwf.cNodup
    · intro b2 hb2
      rw [hbk] at hb2
      rw [hni]
      rcases mem_updateBooking hb2 with hm | ⟨b, hb, _, rfl⟩
      · exact hwf.fresh b2 hm
      · rw [applyTarget_id]
        exact hwf.fresh b hb
    · intro c2 hc2 hbk2
      rw [hcomp] at hc2
      rw [hbk]
      by_cases hta : (t == "approved") = true
      · rw [if_pos hta] at hc2
        have ht : t = "approved" := by simpa using hta
        rcases mem_updateComputer_nodup hwf.cNodup hc2 with ⟨hcm, hcne⟩ | ⟨c, hcm, hcid, rfl⟩
        · rcases hwf.booked c2 hcm hbk2 with ⟨w, hw, hwc, hwa⟩
          by_cases hwid : w.id = bid
          · exfalso
            have hwb0 : w = b0 := booking_id_inj hwf.bNodup hw hb0m (by rw [hwid, hb0id])
            exact hcne (by rw [← hwc, hwb0])
          · exact ⟨w, updateBooking_mem_of_ne hw hwid, hwc, hwa⟩
        · have hbidmem : bid ∈ st.bookings.map Booking.id := by
            rw [← hb0id]
            exact List.mem_map_of_mem Booking.id hb0m
          rcases updateBooking_exists_update (f := applyTarget t r) hbidmem with
            ⟨b1, hb1m, hb1id, hb1mem⟩
          have hb1b0 : b1 = b0 := booking_id_inj hwf.bNodup hb1m hb0m (by rw [hb1id, hb0id])
          subst hb1b0
          refine ⟨applyTarget t r b1, hb1mem, ?_, ?_⟩
          · rw [applyTarget_computerId]
            exact hcid.symm
          · rw [ht, applyTarget_approved]
      · rw [if_neg hta] at hc2
        have htr : (t == "rejected" || t == "cancelled") = true := by
          simp only [Bool.or_eq_true] at hg1 ⊢
          rcases hg1 with h1 | h1
          · rcases h1 with h1 | h1
            · exact absurd h1 (by simpa using hta)
            · exact Or.inl h1
          · exact Or.inr h1
        rw [if_pos htr] at hc2
        by_cases hany : ((updateBooking st.bookings bid (applyTarget t r)).any fun w =>
            w.computerId == b0.computerId && w.status == BStatus.approved &&
              w.id != bid) = true
        · rw [if_pos hany] at hc2
          rcases hwf.booked c2 hc2 hbk2 with ⟨w, hw, hwc, hwa⟩
          by_cases hwid : w.id = bid
          · have hwb0 : w = b0 := booking_id_inj hwf.bNodup hw hb0m (by rw [hwid, hb0id])
            have hc2id : c2.id = b0.computerId := by rw [← hwc, hwb0]
            rcases List.any_eq_true.mp hany with ⟨w2, hw2m, hw2p⟩
            simp only [Bool.and_eq_true, beq_iff_eq, bne_iff_ne, ne_eq,
              decide_eq_true_eq] at hw2p
            exact ⟨w2, hw2m, by rw [hw2p.1.1, hc2id], hw2p.1.2⟩
          · exact ⟨w, updateBooking_mem_of_ne hw hwid, hwc, hwa⟩
        · rw [if_neg hany] at hc2
          rcases mem_updateComputer_nodup hwf.cNodup hc2 with ⟨hcm, hcne⟩ | ⟨c, hcm, hcid, rfl⟩
          · rcases hwf.booked c2 hcm hbk2 with ⟨w, hw, hwc, hwa⟩
            by_cases hwid : w.id = bid
            · exfalso
              have hwb0 : w = b0 := booking_id_inj hwf.bNodup hw hb0m (by rw [hwid, hb0id])
              exact hcne (by rw [← hwc, hwb0])
            · exact ⟨w, updateBooking_mem_of_ne hw hwid, hwc, hwa⟩
          · exfalso
            simp at hbk2

theorem WF_create {st : St} {uid : Nat} {f : BookingForm} {st2 : St}
    (hwf : WF st) (h : submitBooking st uid f = Except.ok st2) : WF st2 := by
  unfold submitBooking at h
  cases hv : validateBookingForm f with
  | some e =>
    rw [hv] at h
    simp at h
  | none =>
    rw [hv] at h
    unfold createBookingServer at h
    split_ifs at h
    cases hfc : findComputer st.computers ((reqOfForm f).computerId.getD 0) with
    | none =>
      rw [hfc] at h
      simp at h
    | some c =>
      rw [hfc] at h
      simp only [Except.ok.injEq] at h
      have hbk : st2.bookings = st.bookings ++ [newBookingOf st uid (reqOfForm f)] := by
        rw [← h]
      have hcm : st2.computers = st.computers := by
        rw [← h]
      have hni : st2.nextId = st.nextId + 1 := by
        rw [← h]
      refine ⟨?_, ?_, ?_, ?_⟩
      · rw [hbk, List.map_append, List.nodup_append]
        refine ⟨hwf.bNodup, by simp, ?_⟩
        intro a ha hb
        rcases List.mem_map.mp ha with ⟨b, hbm, rfl⟩
        have hlt := hwf.fresh b hbm
        simp only [List.map_cons, List.map_nil, List.mem_singleton] at hb
        rw [show (newBookingOf st uid (reqOfForm f)).id = st.nextId from rfl] at hb
        omega
      · rw [hcm]
        exact hwf.cNodup
      · intro b2 hb2
        rw [hbk] at hb2
        rw [hni]
        rcases List.mem_append.mp hb2 with hm | hm
        · exact Nat.lt_succ_of_lt (hwf.fresh b2 hm)
        · simp only [List.mem_singleton] at hm
          rw [hm]
          exact Nat.lt_succ_self _
      · intro c2 hc2 hb2
        rw [hcm] at hc2
        rw [hbk]
        rcases hwf.booked c2 hc2 hb2 with ⟨w, hw, hwc, hwa⟩
        exact ⟨w, List.mem_append_left _ hw, hwc, hwa⟩

theorem WF_applyOp (st : St) (op : Op) (hwf : WF st) : WF (applyOp st op) := by
  cases op with
  | create uid f =>
    show WF (match submitBooking st uid f with
      | Except.ok st2 => st2
      | Except.error _ => st)
    cases h : submitBooking st uid f with
    | ok st2 => exact WF_create hwf h
    | error e => exact hwf
  | setStatus bid t r =>
    show WF (match setBookingStatus st bid t r with
      | Except.ok st2 => st2
      | Except.error _ => st)
    cases h : setBookingStatus st bid t r with
    | ok st2 => exact WF_setStatus hwf h
    | error e => exact hwf
  | sweep now => exact WF_runSweep now st hwf

theorem WF_applyOps (ops : List Op) (st : St) (hwf : WF st) : WF (applyOps st ops) := by
  induction ops generalizing st with
  | nil => simpa [applyOps] using hwf
  | cons op rest ih =>
    show WF (applyOps (applyOp st op) rest)
    exact ih _ (WF_applyOp st op hwf)

theorem applyTarget_rejected (r : Option String) (b : Booking) :
    applyTarget "rejected" r b =
      { b with status := BStatus.rejected, rejectionReason := r } := rfl

theorem applyTarget_status (t : String) (r : Option String) (b : Booking) :
    (applyTarget t r b).status = statusOfString t := by
  unfold applyTarget
  by_cases h : t == "rejected" <;> simp [h]

theorem statusOfString_ne_rejected {t : String} (h : t ≠ "rejected") :
    statusOfString t ≠ BStatus.rejected := by
  unfold statusOfString
  split_ifs <;> simp_all

theorem RejInv_handle {fault : Nat → Bool} {s : St} {x : Booking}
    (hri : RejInv s) : RejInv (handleExpiredBooking fault s x) := by
  cases hfa : fault x.id
  · rw [handleExpiredBooking_fault_false hfa]
    intro b2 hb2 hst
    rcases mem_updateBooking
        (show b2 ∈ updateBooking s.bookings x.id setCompleted from hb2) with
      hm | ⟨b, hb, _, rfl⟩
    · exact hri b2 hm hst
    · simp [setCompleted] at hst
  · rw [handleExpiredBooking_fault_true hfa]
    exact hri

theorem RejInv_fold (fault : Nat → Bool) :
    ∀ (L : List Booking) (s : St), RejInv s →
      RejInv (L.foldl (handleExpiredBooking fault) s) := by
  intro L
  induction L with
  | nil =>
    intro s hri
    simpa using hri
  | cons x rest ih =>
    intro s hri
    simp only [List.foldl_cons]
    exact ih _ (RejInv_handle hri)

theorem RejInv_setStatus {st : St} {bid : Nat} {t : String} {r : Option String} {st2 : St}
    (hri : RejInv st) (h : setBookingStatus st bid t r = Except.ok st2) : RejInv st2 := by
  unfold setBookingStatus at h
  by_cases hg1 : (t == "approved" || t == "rejected" || t == "cancelled")
  case neg =>
    rw [if_pos (by simpa using hg1)] at h
    simp at h
  case pos =>
  rw [if_neg (by simp [hg1])] at h
  by_cases hg2 : (t == "rejected" && (r.getD "" == ""))
  case pos =>
    rw [if_pos (by simpa using hg2)] at h
    simp at h
  case neg =>
  rw [if_neg (by simpa using hg2)] at h
  cases hf : findBooking st.bookings bid with
  | none =>
    rw [hf] at h
    simp at h
  | some b0 =>
    rw [hf] at h
    dsimp only at h
    simp only [Except.ok.injEq] at h
    have hbk : st2.bookings = updateBooking st.bookings bid (applyTarget t r) := by
      rw [← h]
    intro b2 hb2 hst
    rw [hbk] at hb2
    rcases mem_updateBooking hb2 with hm | ⟨b, hb, _, rfl⟩
    · exact hri b2 hm hst
    · by_cases htr : t == "rejected"
      · have ht : t = "rejected" := by simpa using htr
        subst ht
        rw [applyTarget_rejected]
        have hr : r.getD "" ≠ "" := by
          intro hc
          exact hg2 (by simp [hc])
        cases r with
        | none => simp at hr
        | some s => exact ⟨s, rfl, by simpa using hr⟩
      · exfalso
        rw [applyTarget_status] at hst
        exact statusOfString_ne_rejected (by simpa using htr) hst

theorem RejInv_create {st : St} {uid : Nat} {f : BookingForm} {st2 : St}
    (hri : RejInv st) (h : submitBooking st uid f = Except.ok st2) : RejInv st2 := by
  have hbk := submit_ok_inv h
  intro b2 hb2 hst
  rw [hbk] at hb2
  rcases List.mem_append.mp hb2 with hm | hm
  · exact hri b2 hm hst
  · simp only [List.mem_singleton] at hm
    rw [hm] at hst
    simp [newBookingOf] at hst

theorem RejInv_applyOp (st : St) (op : Op) (hri : RejInv st) : RejInv (applyOp st op) := by
  cases op with
  | create uid f =>
    show RejInv (match submitBooking st uid f with
      | Except.ok st2 => st2
      | Except.error _ => st)
    cases h : submitBooking st uid f with
    | ok st2 => exact RejInv_create hri h
    | error e => exact hri
  | setStatus bid t r =>
    show RejInv (match setBookingStatus st bid t r with
      | Except.ok st2 => st2
      | Except.error _ => st)
    cases h : setBookingStatus st bid t r with
    | ok st2 => exact RejInv_setStatus hri h
    | error e => exact hri
  | sweep now =>
    show RejInv ((expiredBookings now st).foldl (handleExpiredBooking noFault) st)
    exact RejInv_fold noFault _ st hri

theorem RejInv_applyOps (ops : List Op) (st : St) (hri : RejInv st) :
    RejInv (applyOps st ops) := by
  induction ops generalizing st with
  | nil => simpa [applyOps] using hri
  | cons op rest ih =>
    show RejInv (applyOps (applyOp st op) rest)
    exact ih _ (RejInv_applyOp st op hri)

/-- Claim C3 (amended): a booking is selected by the sweep query iff it is in
the store, its status is `approved`, and either it is a single-day booking of
today whose end time has passed (`startDate = today ∧ endDate = today ∧
endTime < now`), or its end date is strictly before today.  Bookings with any
other status are never selected. -/
theorem C3_sweep_selection (now : Now) (st : St) (b : Booking) :
    b ∈ expiredBookings now st ↔
      b ∈ st.bookings ∧ b.status = BStatus.approved ∧
        ((b.startDate = now.date ∧ b.endDate = now.date ∧ b.endTime < now.time) ∨
          b.endDate < now.date) := by
  rw [mem_expiredBookings]
  unfold expiredPred
  simp [and_assoc]

/-- Claim C3 counterexample: an approved multi-day booking whose end date
equals today and whose end time has passed is claimed to be selected, but the
sweep query does not select it (its start date is not today). -/
theorem C3_counterexample :
    bExp1.status = BStatus.approved ∧
    bExp1.endDate = (2 : Nat) ∧ bExp1.endTime < 180 ∧ bExp1.startDate ≠ (2 : Nat) ∧
    expiredPred { date := 2, time := 180 } bExp1 = false ∧
    expiredBookings { date := 2, time := 180 }
      { bookings := [bExp1], computers := [], nextId := 2 } = [] := by
  decide

/-- Claim C5 (amended): the expiration sweep never changes the status of a
computer in maintenance (`handleExpiredBooking` releases a computer only when
its status is `booked`); the approve/reject/cancel route, by contrast, can
overwrite maintenance. -/
theorem C5_maintenance_preserved_by_sweep (st : St) (now : Now) (c : Computer)
    (hc : c ∈ st.computers) (hm : c.status = CStatus.maintenance) :
    c ∈ (runSweep now st).computers := by
  show c ∈ ((expiredBookings now st).foldl (handleExpiredBooking noFault) st).computers
  exact fold_mem_maintenance noFault _ st c hc hm

/-- Claim C5 witness: a maintenance computer survives a sweep that expires an
approved booking referencing it. -/
theorem C5_maintenance_preserved_by_sweep_witness :
    ({ id := 7, status := CStatus.maintenance } : Computer) ∈
      (runSweep nowLate stMaintApproved).computers :=
  C5_maintenance_preserved_by_sweep stMaintApproved nowLate _ (by decide) (by decide)

/-- Claim C5 counterexample: approving a pending booking on a maintenance
computer sets the computer to `booked`, overwriting maintenance. -/
theorem C5_counterexample :
    (findComputer stMaint.computers 7).map Computer.status =
      some CStatus.maintenance ∧
    (findComputer (applyOp stMaint (Op.setStatus 1 "approved" none)).computers 7).map
        Computer.status = some CStatus.booked := by
  decide

/-- Claim C9: the status route decides the target-status validity check and
the rejection-reason presence check before the booking lookup; an invalid
target yields the invalid-status error and an empty reason on a reject yields
the missing-reason error even when the booking does not exist, with no state
change; the booking-not-found error occurs only for requests passing both
checks. -/
theorem C9_prechecks_before_lookup (st : St) (bid : Nat) (target : String)
    (r : Option String) :
    (¬ (target = "approved" ∨ target = "rejected" ∨ target = "cancelled") →
      setBookingStatus st bid target r = Except.error StatusErr.invalidStatus ∧
      applyOp st (Op.setStatus bid target r) = st) ∧
    (target = "rejected" → r.getD "" = "" →
      setBookingStatus st bid target r = Except.error StatusErr.missingRejectionReason ∧
      applyOp st (Op.setStatus bid target r) = st) ∧
    (setBookingStatus st bid target r = Except.error StatusErr.bookingNotFound →
      (target = "approved" ∨ target = "rejected" ∨ target = "cancelled") ∧
        (target = "rejected" → r.getD "" ≠ "") ∧
        findBooking st.bookings bid = none) := by
  have happ : ∀ e, setBookingStatus st bid target r = Except.error e →
      applyOp st (Op.setStatus bid target r) = st := by
    intro e he
    show (match setBookingStatus st bid target r with
      | Except.ok st2 => st2
      | Except.error _ => st) = st
    rw [he]
  refine ⟨?_, ?_, ?_⟩
  · intro h
    have hg : (target == "approved" || target == "rejected" || target == "cancelled") = false := by
      simp only [Bool.or_eq_false_iff, beq_eq_false_iff_ne]
      push_neg at h
      exact ⟨⟨h.1, h.2.1⟩, h.2.2⟩
    have he : setBookingStatus st bid target r = Except.error StatusErr.invalidStatus := by
      unfold setBookingStatus
      simp [hg]
    exact ⟨he, happ _ he⟩
  · intro h1 h2
    have he : setBookingStatus st bid target r =
        Except.error StatusErr.missingRejectionReason := by
      unfold setBookingStatus
      subst h1
      simp [h2]
    exact ⟨he, happ _ he⟩
  · intro h
    unfold setBookingStatus at h
    by_cases hg1 : (target == "approved" || target == "rejected" || target == "cancelled")
    · rw [if_neg (by simp [hg1])] at h
      by_cases hg2 : (target == "rejected" && (r.getD "" == ""))
      · rw [if_pos (by simp_all)] at h
        simp at h
      · rw [if_neg (by simp_all)] at h
        cases hf : findBooking st.bookings bid with
        | none =>
          have hg1p : target = "approved" ∨ target = "rejected" ∨ target = "cancelled" := by
            have := hg1
            simp only [Bool.or_eq_true, beq_iff_eq] at this
            tauto
          refine ⟨hg1p, ?_, rfl⟩
          intro ht hr
          apply hg2
          subst ht
          simp [hr]
        | some b0 =>
          rw [hf] at h
          simp at h
    · rw [if_pos (by simpa using hg1)] at h
      simp at h

/-- Claim C9 witness: with an empty store, an unknown target status is
rejected as invalid, and a reject without reason is rejected as missing the
reason, both before the (absent) booking is looked up. -/
theorem C9_prechecks_before_lookup_witness :
    (setBookingStatus { bookings := [], computers := [], nextId := 0 } 1 "completed" none =
        Except.error StatusErr.invalidStatus ∧
      applyOp { bookings := [], computers := [], nextId := 0 }
        (Op.setStatus 1 "completed" none) =
        { bookings := [], computers := [], nextId := 0 }) ∧
    (setBookingStatus { bookings := [], computers := [], nextId := 0 } 1 "rejected" none =
        Except.error StatusErr.missingRejectionReason ∧
      applyOp { bookings := [], computers := [], nextId := 0 }
        (Op.setStatus 1 "rejected" none) =
        { bookings := [], computers := [], nextId := 0 }) :=
  ⟨(C9_prechecks_before_lookup _ 1 "completed" none).1 (by decide),
   (C9_prechecks_before_lookup _ 1 "rejected" none).2.1 rfl rfl⟩

/-- Claim C10: booking creation checks only that the referenced computer
exists, never its availability: with a complete request body, a computer in
any status (booked, maintenance or available) yields a new pending booking,
and a missing computer is the only resource-related failure. -/
theorem C10_create_ignores_availability (st : St) (uid : Nat) (r : CreateReq)
    (hcomplete : (r.computerId.isNone || r.startDate.isNone || r.endDate.isNone ||
      r.startTime.isNone || r.endTime.isNone || (r.reason.getD "" == "")) = false) :
    (∀ c, findComputer st.computers (r.computerId.getD 0) = some c →
      (c.status = CStatus.booked ∨ c.status = CStatus.maintenance ∨
        c.status = CStatus.available) →
      createBookingServer st uid r =
        Except.ok { st with bookings := st.bookings ++ [newBookingOf st uid r],
                            nextId := st.nextId + 1 } ∧
      (newBookingOf st uid r).status = BStatus.pending) ∧
    (findComputer st.computers (r.computerId.getD 0) = none →
      createBookingServer st uid r = Except.error BookingErr.resourceNotFound) := by
  constructor
  · intro c hc _
    refine ⟨?_, rfl⟩
    unfold createBookingServer
    rw [if_neg (by simp [hcomplete]), hc]
  · intro hc
    unfold createBookingServer
    rw [if_neg (by simp [hcomplete]), hc]

/-- Claim C10 witness: a complete request referencing a `booked` computer
still creates a pending booking. -/
theorem C10_create_ignores_availability_witness :
    createBookingServer stBookedComp 5 reqFull =
      Except.ok { stBookedComp with
        bookings := stBookedComp.bookings ++ [newBookingOf stBookedComp 5 reqFull],
        nextId := stBookedComp.nextId + 1 } ∧
    (newBookingOf stBookedComp 5 reqFull).status = BStatus.pending :=
  (C10_create_ignores_availability stBookedComp 5 reqFull (by decide)).1
    { id := 7, status := CStatus.booked } (by decide) (Or.inl rfl)

/-- Claim C7: running the sweep twice in immediate succession with no time
advance processes each booking at most once: after one run, the query matches
no bookings, the second run processes zero bookings, and the store is
unchanged by the second run (the first run completed every match and the
query selects only approved bookings). -/
theorem C7_sweep_idempotent (st : St) (now : Now)
    (hnd : (st.bookings.map Booking.id).Nodup) :
    expiredBookings now (runSweep now st) = [] ∧
    (checkExpiredBookings noFault now (runSweep now st)).2 = 0 ∧
    runSweep now (runSweep now st) = runSweep now st := by
  have hmain : ∀ b2 ∈ (runSweep now st).bookings, expiredPred now b2 = false := by
    show ∀ b2 ∈ ((expiredBookings now st).foldl (handleExpiredBooking noFault) st).bookings, _
    apply sweep_fold_no_expired now _ st hnd
    intro b2 hb2 hexp
    exact List.mem_map_of_mem Booking.id (mem_expiredBookings.mpr ⟨hb2, hexp⟩)
  have hempty : expiredBookings now (runSweep now st) = [] := by
    unfold expiredBookings
    rw [List.filter_eq_nil_iff]
    intro a ha
    simp [hmain a ha]
  refine ⟨hempty, ?_, ?_⟩
  · show (expiredBookings now (runSweep now st)).length = 0
    rw [hempty]
    rfl
  · show (expiredBookings now (runSweep now st)).foldl (handleExpiredBooking noFault)
        (runSweep now st) = runSweep now st
    rw [hempty]
    rfl

/-- Claim C7 witness: a store with one expired approved booking; after the
first sweep the query is empty, the second run processes zero bookings and
leaves the store unchanged. -/
theorem C7_sweep_idempotent_witness :
    expiredBookings nowLate (runSweep nowLate stTwo) = [] ∧
    (checkExpiredBookings noFault nowLate (runSweep nowLate stTwo)).2 = 0 ∧
    runSweep nowLate (runSweep nowLate stTwo) = runSweep nowLate stTwo :=
  C7_sweep_idempotent stTwo nowLate (by decide)

/-- Claim C8: per-booking failures are isolated inside the sweep: the logged
count is the number of matched bookings; a faulted booking raises inside
`handleExpiredBooking` where its own catch swallows the error leaving the
store unchanged for that booking; and every matched booking whose processing
does not fault still ends up completed, regardless of faults on the others. -/
theorem C8_sweep_error_isolation (fault : Nat → Bool) (now : Now) (st : St)
    (hnd : (st.bookings.map Booking.id).Nodup) :
    (checkExpiredBookings fault now st).2 = (expiredBookings now st).length ∧
    (∀ (s : St) (b : Booking), fault b.id = true →
      handleExpiredBookingEx fault s b = Except.error () ∧
      handleExpiredBooking fault s b = s) ∧
    (∀ b ∈ expiredBookings now st, fault b.id = false →
      ∃ b2 ∈ (checkExpiredBookings fault now st).1.bookings,
        b2.id = b.id ∧ b2.status = BStatus.completed) := by
  refine ⟨rfl, ?_, ?_⟩
  · intro s b hf
    exact ⟨by simp [handleExpiredBookingEx, hf], handleExpiredBooking_fault_true hf⟩
  · intro b hb hf
    show ∃ b2 ∈ ((expiredBookings now st).foldl (handleExpiredBooking fault) st).bookings,
      b2.id = b.id ∧ b2.status = BStatus.completed
    refine sweep_fold_completed fault _ st ?_ ?_ b hb hf
    · exact List.Nodup.sublist (List.Sublist.map Booking.id (List.filter_sublist _)) hnd
    · intro a ha
      exact List.mem_map_of_mem Booking.id (mem_expiredBookings.mp ha).1

/-- Claim C8 witness: with two expired approved bookings and a fault on the
first, the sweep still reports two matches, the faulted handler swallows its
error, and the second booking is completed anyway. -/
theorem C8_sweep_error_isolation_witness :
    (checkExpiredBookings faultOn1 nowLate stTwo).2 =
      (expiredBookings nowLate stTwo).length ∧
    (handleExpiredBookingEx faultOn1 stTwo bExp1 = Except.error () ∧
      handleExpiredBooking faultOn1 stTwo bExp1 = stTwo) ∧
    ∃ b2 ∈ (checkExpiredBookings faultOn1 nowLate stTwo).1.bookings,
      b2.id = bExp2.id ∧ b2.status = BStatus.completed :=
  ⟨(C8_sweep_error_isolation faultOn1 nowLate stTwo (by decide)).1,
   (C8_sweep_error_isolation faultOn1 nowLate stTwo (by decide)).2.1 stTwo bExp1 (by decide),
   (C8_sweep_error_isolation faultOn1 nowLate stTwo (by decide)).2.2 bExp2 (by decide) (by decide)⟩

theorem findBooking_cons_pos {x : Booking} {rest : List Booking} {bid : Nat}
    (hx : (x.id == bid) = true) :
    findBooking (x :: rest) bid = some x := by
  unfold findBooking
  simp [hx]

theorem findBooking_cons_neg {x : Booking} {rest : List Booking} {bid : Nat}
    (hx : (x.id == bid) = false) :
    findBooking (x :: rest) bid = findBooking rest bid := by
  conv_lhs => unfold findBooking
  simp [hx]

theorem findBooking_update {bs : List Booking} {bid : Nat} {f : Booking → Booking}
    {b0 : Booking} (h : findBooking bs bid = some b0) (hid : (f b0).id = b0.id) :
    findBooking (updateBooking bs bid f) bid = some (f b0) := by
  induction bs with
  | nil => simp [findBooking] at h
  | cons x rest ih =>
    unfold updateBooking
    cases hx : x.id == bid
    · rw [if_neg (by simp [hx])]
      rw [findBooking_cons_neg hx] at h
      rw [findBooking_cons_neg hx]
      exact ih h
    · rw [if_pos (by simp [hx])]
      rw [findBooking_cons_pos hx] at h
      have hx0 : x = b0 := by simpa using h
      subst hx0
      exact findBooking_cons_pos (by rw [hid]; exact hx)

/-- Claim C1 (amended): starting from a well-formed store (unique document
ids, fresh id counter, and every `booked` computer referenced by an approved
booking), after any finite sequence of create / status-change / sweep
operations, every computer whose status is `booked` still has at least one
`approved` booking referencing it.  The stronger claimed iff — that the
approved booking is also temporally active — fails on the code (see the
counterexample). -/
theorem C1_booked_has_approved_booking (st : St) (ops : List Op)
    (hnd : (st.bookings.map Booking.id).Nodup)
    (hcnd : (st.computers.map Computer.id).Nodup)
    (hfresh : ∀ b ∈ st.bookings, b.id < st.nextId)
    (hcons : ∀ c ∈ st.computers, c.status = CStatus.booked →
      ∃ b ∈ st.bookings, b.computerId = c.id ∧ b.status = BStatus.approved) :
    ∀ c ∈ (applyOps st ops).computers, c.status = CStatus.booked →
      ∃ b ∈ (applyOps st ops).bookings, b.computerId = c.id ∧
        b.status = BStatus.approved :=
  (WF_applyOps ops st ⟨hnd, hcnd, hfresh, hcons⟩).booked

/-- Claim C1 witness: approving the pending booking of `stPend` leaves
computer 7 `booked` with an approved booking referencing it. -/
theorem C1_booked_has_approved_booking_witness :
    ∃ b ∈ (applyOps stPend [Op.setStatus 1 "approved" none]).bookings,
      b.computerId = 7 ∧ b.status = BStatus.approved :=
  C1_booked_has_approved_booking stPend [Op.setStatus 1 "approved" none]
    (by decide) (by decide) (by decide) (by decide)
    { id := 7, status := CStatus.booked } (by decide) rfl

/-- Claim C1 counterexample: `stPend` is consistent in the claimed sense at
the sweep instant `nowLate` (no computer is booked, no booking approved); a
single approve of its already-elapsed booking produces a `booked` computer
with no approved booking whose interval has not elapsed, so the claimed iff
is violated after one engine operation. -/
theorem C1_counterexample :
    (stPend.computers.all (fun c =>
      (c.status == CStatus.booked) ==
        stPend.bookings.any (fun b => b.computerId == c.id &&
          b.status == BStatus.approved && !(expiredPred nowLate b)))) = true ∧
    ((applyOps stPend [Op.setStatus 1 "approved" none]).computers.all (fun c =>
      (c.status == CStatus.booked) ==
        (applyOps stPend [Op.setStatus 1 "approved" none]).bookings.any (fun b =>
          b.computerId == c.id && b.status == BStatus.approved &&
            !(expiredPred nowLate b)))) = false := by
  decide

/-- Claim C4 (amended): the sweeper never mutates a booking in a terminal
state (its query selects only approved bookings, so approved → completed is
the only automatic transition); the status route, however, performs no
current-status check: any booking the route finds — terminal or not — is set
to the requested target status. -/
theorem C4_terminal_and_unguarded :
    (∀ (st : St) (now : Now) (b : Booking),
      (st.bookings.map Booking.id).Nodup → b ∈ st.bookings →
      (b.status = BStatus.rejected ∨ b.status = BStatus.cancelled ∨
        b.status = BStatus.completed) →
      b ∈ (runSweep now st).bookings) ∧
    (∀ (st : St) (bid : Nat) (t : String) (r : Option String) (b0 : Booking),
      findBooking st.bookings bid = some b0 →
      (t = "approved" ∨ t = "cancelled") →
      ∃ st2, setBookingStatus st bid t r = Except.ok st2 ∧
        findBooking st2.bookings bid = some (applyTarget t r b0)) := by
  constructor
  · intro st now b hnd hb hterm
    show b ∈ ((expiredBookings now st).foldl (handleExpiredBooking noFault) st).bookings
    apply fold_mem_booking noFault _ st b hb
    intro a ha hid
    have hap : a.status = BStatus.approved :=
      expiredPred_status (mem_expiredBookings.mp ha).2
    have hba : b = a := booking_id_inj hnd hb (mem_expiredBookings.mp ha).1 hid
    rw [hba, hap] at hterm
    simp at hterm
  · intro st bid t r b0 hf ht
    have hg1 : (t == "approved" || t == "rejected" || t == "cancelled") = true := by
      rcases ht with rfl | rfl <;> rfl
    have hg2 : (t == "rejected" && (r.getD "" == "")) = false := by
      rcases ht with rfl | rfl <;> rfl
    cases hs : setBookingStatus st bid t r with
    | error e =>
      exfalso
      unfold setBookingStatus at hs
      rw [if_neg (by simp [hg1]), if_neg (by simp [hg2]), hf] at hs
      dsimp only at hs
      simp at hs
    | ok st2 =>
      refine ⟨st2, rfl, ?_⟩
      unfold setBookingStatus at hs
      rw [if_neg (by simp [hg1]), if_neg (by simp [hg2]), hf] at hs
      dsimp only at hs
      simp only [Except.ok.injEq] at hs
      have hbk : st2.bookings = updateBooking st.bookings bid (applyTarget t r) := by
        rw [← hs]
      rw [hbk]
      exact findBooking_update hf (applyTarget_id t r b0)

/-- Claim C4 witness: a rejected booking survives a sweep untouched, and the
status route willingly re-approves a completed booking. -/
theorem C4_terminal_and_unguarded_witness :
    bRej ∈ (runSweep nowLate stMix).bookings ∧
    ∃ st2, setBookingStatus stDone 1 "approved" none = Except.ok st2 ∧
      findBooking st2.bookings 1 =
        some (applyTarget "approved" none
          (sampleBooking 1 7 1 2 60 120 BStatus.completed)) :=
  ⟨C4_terminal_and_unguarded.1 stMix nowLate bRej (by decide) (by decide) (by decide),
   C4_terminal_and_unguarded.2 stDone 1 "approved" none
     (sampleBooking 1 7 1 2 60 120 BStatus.completed) (by decide) (Or.inl rfl)⟩

/-- Claim C4 counterexample: the status route mutates a completed (terminal)
booking to approved without requiring the current status to be pending. -/
theorem C4_counterexample :
    (findBooking stDone.bookings 1).map Booking.status = some BStatus.completed ∧
    (findBooking (applyOp stDone (Op.setStatus 1 "approved" none)).bookings 1).map
      Booking.status = some BStatus.approved := by
  decide

/-- Claim C6 (amended): in any store where every rejected booking carries a
non-empty rejection reason, every engine operation preserves that property
(the reject transition demands and stores a non-empty reason).  The claimed
converse — the reason is set only while status is rejected — fails because
later transitions never clear it (see the counterexample). -/
theorem C6_rejected_implies_reason (st : St) (ops : List Op)
    (h : ∀ b ∈ st.bookings, b.status = BStatus.rejected →
      ∃ s, b.rejectionReason = some s ∧ s ≠ "") :
    ∀ b ∈ (applyOps st ops).bookings, b.status = BStatus.rejected →
      ∃ s, b.rejectionReason = some s ∧ s ≠ "" :=
  RejInv_applyOps ops st h

/-- Claim C6 witness: after rejecting the pending booking of `stPend` with
reason "slow", the rejected booking carries that non-empty reason. -/
theorem C6_rejected_implies_reason_witness :
    ∃ s, ({ sampleBooking 1 7 1 2 60 120 BStatus.pending with
        status := BStatus.rejected,
        rejectionReason := some "slow" } : Booking).rejectionReason = some s ∧
      s ≠ "" :=
  C6_rejected_implies_reason stPend [Op.setStatus 1 "rejected" (some "slow")]
    (by decide) _ (by decide) rfl

/-- Claim C6 counterexample: rejecting a booking and then approving it leaves
`rejectionReason` set while the status is approved, violating the claimed
iff. -/
theorem C6_counterexample :
    (findBooking (applyOps stPend [Op.setStatus 1 "rejected" (some "late"),
        Op.setStatus 1 "approved" none]).bookings 1).map
      (fun b => (b.status, b.rejectionReason)) =
      some (BStatus.approved, some "late") := by
  decide

/-- Claim C2: the creation pipeline applies the validation rules in the
stated order with the first failing rule determining the error: missing
fields; start date on the closure day (Sunday, weekday 0); end date on
Sunday; end date before start date (date-only); inclusive day span above 7;
combined end instant before combined start instant; same-day duration under
60 minutes (multi-day bookings are exempt from the 1-hour floor); otherwise,
if the computer exists, a pending booking is appended, and a missing computer
yields the resource-not-found error. -/
theorem C2_validation_order (st : St) (uid : Nat) (f : BookingForm) :
    (submitBooking st uid f = Except.error BookingErr.missingFields ↔
      formMissing f = true) ∧
    (submitBooking st uid f = Except.error BookingErr.closureDayStart ↔
      formMissing f = false ∧ getDay (f.startDate.getD 0) = 0) ∧
    (submitBooking st uid f = Except.error BookingErr.closureDayEnd ↔
      formMissing f = false ∧ getDay (f.startDate.getD 0) ≠ 0 ∧
        getDay (f.endDate.getD 0) = 0) ∧
    (submitBooking st uid f = Except.error BookingErr.endBeforeStart ↔
      formMissing f = false ∧ getDay (f.startDate.getD 0) ≠ 0 ∧
        getDay (f.endDate.getD 0) ≠ 0 ∧ f.endDate.getD 0 < f.startDate.getD 0) ∧
    (submitBooking st uid f = Except.error BookingErr.durationTooLong ↔
      formMissing f = false ∧ getDay (f.startDate.getD 0) ≠ 0 ∧
        getDay (f.endDate.getD 0) ≠ 0 ∧ ¬ f.endDate.getD 0 < f.startDate.getD 0 ∧
        f.endDate.getD 0 - f.startDate.getD 0 + 1 > 7) ∧
    (submitBooking st uid f = Except.error BookingErr.endBeforeStartInstant ↔
      formMissing f = false ∧ getDay (f.startDate.getD 0) ≠ 0 ∧
        getDay (f.endDate.getD 0) ≠ 0 ∧ ¬ f.endDate.getD 0 < f.startDate.getD 0 ∧
        ¬ f.endDate.getD 0 - f.startDate.getD 0 + 1 > 7 ∧
        instantOf (f.endDate.getD 0) (f.endTime.getD 0) <
          instantOf (f.startDate.getD 0) (f.startTime.getD 0)) ∧
    (submitBooking st uid f = Except.error BookingErr.durationTooShort ↔
      formMissing f = false ∧ getDay (f.startDate.getD 0) ≠ 0 ∧
        getDay (f.endDate.getD 0) ≠ 0 ∧ ¬ f.endDate.getD 0 < f.startDate.getD 0 ∧
        ¬ f.endDate.getD 0 - f.startDate.getD 0 + 1 > 7 ∧
        ¬ instantOf (f.endDate.getD 0) (f.endTime.getD 0) <
            instantOf (f.startDate.getD 0) (f.startTime.getD 0) ∧
        f.endDate.getD 0 = f.startDate.getD 0 ∧
        instantOf (f.endDate.getD 0) (f.endTime.getD 0) -
            instantOf (f.startDate.getD 0) (f.startTime.getD 0) < 60) ∧
    (submitBooking st uid f = Except.error BookingErr.resourceNotFound ↔
      validateBookingForm f = none ∧
        findComputer st.computers (f.selectedComputer.getD 0) = none) ∧
    (∀ st2, submitBooking st uid f = Except.ok st2 →
      st2.bookings = st.bookings ++ [newBookingOf st uid (reqOfForm f)] ∧
      (newBookingOf st uid (reqOfForm f)).status = BStatus.pending) ∧
    (validateBookingForm f = none →
      ∀ c, findComputer st.computers (f.selectedComputer.getD 0) = some c →
        submitBooking st uid f =
          Except.ok { st with
            bookings := st.bookings ++ [newBookingOf st uid (reqOfForm f)],
            nextId := st.nextId + 1 }) := by
  refine ⟨submit_missing_iff, ?_, ?_, ?_, ?_, ?_, ?_, submit_rnf_iff, ?_, ?_⟩
  · exact (submit_client_error_iff (by decide) (by decide)).trans
      (validate_closureStart_iff f)
  · exact (submit_client_error_iff (by decide) (by decide)).trans
      (validate_closureEnd_iff f)
  · exact (submit_client_error_iff (by decide) (by decide)).trans
      (validate_endBeforeStart_iff f)
  · exact (submit_client_error_iff (by decide) (by decide)).trans
      (validate_durationTooLong_iff f)
  · exact (submit_client_error_iff (by decide) (by decide)).trans
      (validate_endBeforeStartInstant_iff f)
  · exact (submit_client_error_iff (by decide) (by decide)).trans
      (validate_durationTooShort_iff f)
  · intro st2 h
    exact ⟨submit_ok_inv h, rfl⟩
  · intro hv c hc
    rw [submit_of_validate_none hv]
    exact server_ok ((validate_none_iff f).mp hv).1 hc

/-- Claim C2 witness: a fully filled form whose start date falls on the
closure day is rejected with the closure-day-start error. -/
theorem C2_validation_order_witness :
    submitBooking stPend 9 fSun = Except.error BookingErr.closureDayStart :=
  ((C2_validation_order stPend 9 fSun).2.1).mpr (by decide)

end Negces
